import Mathlib

/-!
Verification development for the truffle mesh-networking repository.

Shallow embedding of the coordination layer: the wire codec
(`packages/protocol`, `frame-codec`), the primary election
(`packages/mesh/src/primary-election.ts`), the mesh node send/broadcast path
(`packages/mesh/src/mesh-node.ts`), the device table
(`packages/mesh/src/device-manager.ts`), the connection transport
(`packages/transport/src/index.ts`) and the message bus
(`mesh-message-bus`).

JavaScript `Map`s and plain objects are embedded as association lists in
insertion order; machine numbers as `Nat`/`Int`; fallible operations as
`Option`/`Except`; event emission as explicit event lists returned next to
the new state.
-/

set_option maxRecDepth 16384

namespace Truffle

/-! ### Association lists

Embedding of JavaScript `Map` (and of object field tables): a list of
key/value pairs in insertion order.  `alSet` mirrors `Map.set` (an existing
key keeps its position, a new key is appended), `alGet` mirrors `Map.get`
and `alDelete` mirrors `Map.delete`. -/

def alGet {β : Type} (k : String) : List (String × β) → Option β
  | [] => none
  | (k1, v1) :: rest => if k1 = k then some v1 else alGet k rest

def alSet {β : Type} (k : String) (v : β) : List (String × β) → List (String × β)
  | [] => [(k, v)]
  | (k1, v1) :: rest => if k1 = k then (k, v) :: rest else (k1, v1) :: alSet k v rest

def alDelete {β : Type} (k : String) : List (String × β) → List (String × β)
  | [] => []
  | (k1, v1) :: rest => if k1 = k then rest else (k1, v1) :: alDelete k rest

theorem alGet_alSet_self {β : Type} (k : String) (v : β) (l : List (String × β)) :
    alGet k (alSet k v l) = some v := by
  induction l with
  | nil => simp [alSet, alGet]
  | cons hd tl ih =>
    obtain ⟨k1, v1⟩ := hd
    by_cases h : k1 = k <;> simp [alSet, alGet, h, ih]

theorem alGet_alSet_ne {β : Type} {k k2 : String} (v : β) (l : List (String × β))
    (h : k2 ≠ k) : alGet k2 (alSet k v l) = alGet k2 l := by
  induction l with
  | nil =>
    simp only [alSet, alGet]
    rw [if_neg (fun hh => h hh.symm)]
  | cons hd tl ih =>
    obtain ⟨k1, v1⟩ := hd
    by_cases h1 : k1 = k
    · subst h1
      simp only [alSet, if_pos rfl, alGet]
      rw [if_neg (fun hh => h hh.symm), if_neg (fun hh => h hh.symm)]
    · simp [alSet, alGet, h1, ih]

theorem alGet_isSome_alSet {β : Type} (k k2 : String) (v : β) (l : List (String × β))
    (h : (alGet k2 l).isSome) : (alGet k2 (alSet k v l)).isSome := by
  by_cases hk : k2 = k
  · subst hk; simp [alGet_alSet_self]
  · rwa [alGet_alSet_ne v l hk]

theorem alGet_map {β γ : Type} (f : String → β → γ) (k : String) :
    ∀ l : List (String × β),
      alGet k (l.map (fun p => (p.1, f p.1 p.2))) = (alGet k l).map (f k)
  | [] => by simp [alGet]
  | (k1, v1) :: rest => by
    by_cases h : k1 = k
    · subst h; simp [alGet]
    · simp [alGet, h, alGet_map f k rest]

/-! ### Dynamic values

The codec serializes whole envelopes with `@msgpack/msgpack` `encode`/`decode`
or with `JSON.stringify`/`JSON.parse`.  Those serializers are external
libraries, not part of this repository; what the repository relies on is
their contract: each is an injective encoding of a dynamically-typed JSON-like
value with an exact-inverse parser.  `JValue` is the value domain (numbers
embedded as `Int`; floating point is out of scope) and `valEnc`/`parseVal`
below are one concrete such serializer standing for both formats. -/

mutual
inductive JValue where
  | jnull : JValue
  | jbool (b : Bool) : JValue
  | jint (i : Int) : JValue
  | jstr (s : String) : JValue
  | jarr (es : JArr) : JValue
  | jobj (fs : JObj) : JValue

inductive JArr where
  | nil : JArr
  | cons (v : JValue) (vs : JArr) : JArr

inductive JObj where
  | nil : JObj
  | cons (k : String) (v : JValue) (fs : JObj) : JObj
end

def JArr.length : JArr → Nat
  | .nil => 0
  | .cons _ vs => 1 + vs.length

def JObj.length : JObj → Nat
  | .nil => 0
  | .cons _ _ fs => 1 + fs.length

/-- Property lookup on a dynamic value, as JavaScript `parsed.field` does it:
a lookup on a non-object (including arrays, whose named properties are
absent) yields nothing. -/
def jsGetField : JValue → String → Option JValue
  | .jobj fs, k => go fs k
  | _, _ => none
where go : JObj → String → Option JValue
  | .nil, _ => none
  | .cons k1 v fs, k => if k1 = k then some v else go fs k

/-! ### Canonical byte serializer (model of the msgpack / JSON libraries)

Natural numbers are written as a digit count followed by little-endian
base-256 digits, strings as a character count followed by three bytes per
code point, values as a tag byte followed by the payload. -/

def natDigits : Nat → Nat → List Nat
  | 0, _ => []
  | fuel + 1, n => if n = 0 then [] else n % 256 :: natDigits fuel (n / 256)

def ofB : List Nat → Nat
  | [] => 0
  | b :: bs => b + 256 * ofB bs

def natEnc (n : Nat) : List Nat :=
  (natDigits n n).length :: natDigits n n

def natParse : List Nat → Option (Nat × List Nat)
  | [] => none
  | k :: rest => if k ≤ rest.length then some (ofB (rest.take k), rest.drop k) else none

theorem ofB_natDigits : ∀ fuel n, n ≤ fuel → ofB (natDigits fuel n) = n := by
  intro fuel
  induction fuel with
  | zero => intro n h; interval_cases n; simp [natDigits, ofB]
  | succ f ih =>
    intro n h
    by_cases h0 : n = 0
    · simp [natDigits, h0, ofB]
    · have hdiv : n / 256 ≤ f := by
        have : n / 256 < n := Nat.div_lt_self (Nat.pos_of_ne_zero h0) (by omega)
        omega
      simp only [natDigits, h0, if_false, ofB, ih _ hdiv]
      omega

theorem natParse_natEnc (n : Nat) (rest : List Nat) :
    natParse (natEnc n ++ rest) = some (n, rest) := by
  simp only [natEnc, natParse, List.cons_append]
  rw [if_pos (by simp), List.take_append_of_le_length (le_refl _),
    List.drop_append_of_le_length (le_refl _)]
  simp [ofB_natDigits n n (le_refl n)]

def charEnc (c : Char) : List Nat :=
  [c.toNat % 256, c.toNat / 256 % 256, c.toNat / 65536]

def charsEnc : List Char → List Nat
  | [] => []
  | c :: cs => charEnc c ++ charsEnc cs

def charsParse : Nat → List Nat → Option (List Char × List Nat)
  | 0, bs => some ([], bs)
  | n + 1, b0 :: b1 :: b2 :: bs =>
    (charsParse n bs).map
      (fun p => (Char.ofNat (b0 + 256 * b1 + 65536 * b2) :: p.1, p.2))
  | _ + 1, _ => none

def strEnc (s : String) : List Nat :=
  natEnc s.toList.length ++ charsEnc s.toList

def strParse (bs : List Nat) : Option (String × List Nat) :=
  (natParse bs).bind fun p =>
    (charsParse p.1 p.2).map fun q => (String.mk q.1, q.2)

theorem charsParse_charsEnc :
    ∀ (cs : List Char) (rest : List Nat),
      charsParse cs.length (charsEnc cs ++ rest) = some (cs, rest) := by
  intro cs
  induction cs with
  | nil => intro rest; simp [charsEnc, charsParse]
  | cons c tl ih =>
    intro rest
    have hc : c.toNat % 256 + 256 * (c.toNat / 256 % 256) + 65536 * (c.toNat / 65536)
        = c.toNat := by omega
    simp [charsEnc, charEnc, charsParse, ih rest, hc, Char.ofNat_toNat]

theorem strParse_strEnc (s : String) (rest : List Nat) :
    strParse (strEnc s ++ rest) = some (s, rest) := by
  cases s with
  | mk data =>
    simp only [strEnc, strParse, String.toList, List.append_assoc, natParse_natEnc]
    simp [charsParse_charsEnc data rest]

def intEnc : Int → List Nat
  | i => if i < 0 then 1 :: natEnc (-i).toNat else 0 :: natEnc i.toNat

def intParse : List Nat → Option (Int × List Nat)
  | 0 :: r => (natParse r).map fun p => ((p.1 : Int), p.2)
  | 1 :: r => (natParse r).map fun p => (-(p.1 : Int), p.2)
  | _ => none

theorem intParse_intEnc (i : Int) (rest : List Nat) :
    intParse (intEnc i ++ rest) = some (i, rest) := by
  by_cases h : i < 0
  · simp only [intEnc, if_pos h, List.cons_append, intParse, natParse_natEnc]
    have : ((-i).toNat : Int) = -i := Int.toNat_of_nonneg (by omega)
    simp [this]
  · simp only [intEnc, if_neg h, List.cons_append, intParse, natParse_natEnc]
    have : (i.toNat : Int) = i := Int.toNat_of_nonneg (by omega)
    simp [this]

mutual
def valEnc : JValue → List Nat
  | .jnull => [0]
  | .jbool b => [1, if b then 1 else 0]
  | .jint i => 2 :: intEnc i
  | .jstr s => 3 :: strEnc s
  | .jarr es => 4 :: (natEnc es.length ++ arrEnc es)
  | .jobj fs => 5 :: (natEnc fs.length ++ objEnc fs)

def arrEnc : JArr → List Nat
  | .nil => []
  | .cons v vs => valEnc v ++ arrEnc vs

def objEnc : JObj → List Nat
  | .nil => []
  | .cons k v fs => strEnc k ++ (valEnc v ++ objEnc fs)
end

mutual
def depthV : JValue → Nat
  | .jnull => 1
  | .jbool _ => 1
  | .jint _ => 1
  | .jstr _ => 1
  | .jarr es => depthA es + 1
  | .jobj fs => depthO fs + 1

def depthA : JArr → Nat
  | .nil => 0
  | .cons v vs => max (depthV v) (depthA vs)

def depthO : JObj → Nat
  | .nil => 0
  | .cons _ v fs => max (depthV v) (depthO fs)
end

def parseArrN (p : List Nat → Option (JValue × List Nat)) :
    Nat → List Nat → Option (JArr × List Nat)
  | 0, r => some (.nil, r)
  | n + 1, r =>
    (p r).bind fun q =>
      (parseArrN p n q.2).map fun w => (.cons q.1 w.1, w.2)

def parseObjN (p : List Nat → Option (JValue × List Nat)) :
    Nat → List Nat → Option (JObj × List Nat)
  | 0, r => some (.nil, r)
  | n + 1, r =>
    (strParse r).bind fun k =>
      (p k.2).bind fun q =>
        (parseObjN p n q.2).map fun w => (.cons k.1 q.1 w.1, w.2)

def parseVal : Nat → List Nat → Option (JValue × List Nat)
  | 0, _ => none
  | fuel + 1, bs =>
    match bs with
    | 0 :: r => some (.jnull, r)
    | 1 :: 0 :: r => some (.jbool false, r)
    | 1 :: 1 :: r => some (.jbool true, r)
    | 2 :: r => (intParse r).map fun p => (.jint p.1, p.2)
    | 3 :: r => (strParse r).map fun p => (.jstr p.1, p.2)
    | 4 :: r =>
      (natParse r).bind fun p =>
        (parseArrN (parseVal fuel) p.1 p.2).map fun w => (.jarr w.1, w.2)
    | 5 :: r =>
      (natParse r).bind fun p =>
        (parseObjN (parseVal fuel) p.1 p.2).map fun w => (.jobj w.1, w.2)
    | _ => none

theorem parseArrN_arrEnc {p : List Nat → Option (JValue × List Nat)} {f : Nat}
    (hp : ∀ v rest, depthV v ≤ f → p (valEnc v ++ rest) = some (v, rest)) :
    ∀ (es : JArr) (rest : List Nat), depthA es ≤ f →
      parseArrN p es.length (arrEnc es ++ rest) = some (es, rest)
  | .nil, rest, _ => by simp [JArr.length, arrEnc, parseArrN]
  | .cons v vs, rest, h => by
    have h1 : depthV v ≤ f := le_trans (le_max_left _ _) h
    have h2 : depthA vs ≤ f := le_trans (le_max_right _ _) h
    have hlen : (JArr.cons v vs).length = vs.length + 1 := by
      simp [JArr.length, Nat.add_comm]
    rw [hlen]
    simp only [arrEnc, parseArrN, List.append_assoc, hp v _ h1]
    simp [parseArrN_arrEnc hp vs rest h2]

theorem parseObjN_objEnc {p : List Nat → Option (JValue × List Nat)} {f : Nat}
    (hp : ∀ v rest, depthV v ≤ f → p (valEnc v ++ rest) = some (v, rest)) :
    ∀ (fs : JObj) (rest : List Nat), depthO fs ≤ f →
      parseObjN p fs.length (objEnc fs ++ rest) = some (fs, rest)
  | .nil, rest, _ => by simp [JObj.length, objEnc, parseObjN]
  | .cons k v vs, rest, h => by
    have h1 : depthV v ≤ f := le_trans (le_max_left _ _) h
    have h2 : depthO vs ≤ f := le_trans (le_max_right _ _) h
    have hlen : (JObj.cons k v vs).length = vs.length + 1 := by
      simp [JObj.length, Nat.add_comm]
    rw [hlen]
    simp only [objEnc, parseObjN, List.append_assoc, strParse_strEnc, Option.some_bind]
    rw [hp v (objEnc vs ++ rest) h1]
    simp [parseObjN_objEnc hp vs rest h2]

theorem parseVal_valEnc :
    ∀ (fuel : Nat) (v : JValue) (rest : List Nat), depthV v ≤ fuel →
      parseVal fuel (valEnc v ++ rest) = some (v, rest) := by
  intro fuel
  induction fuel with
  | zero =>
    intro v rest h
    exfalso
    cases v <;> simp [depthV] at h
  | succ f ih =>
    intro v rest h
    cases v with
    | jnull => simp [valEnc, parseVal]
    | jbool b => cases b <;> simp [valEnc, parseVal]
    | jint i => simp [valEnc, parseVal, intParse_intEnc]
    | jstr s => simp [valEnc, parseVal, strParse_strEnc]
    | jarr es =>
      simp only [depthV] at h
      simp only [valEnc, List.cons_append, List.append_assoc, parseVal, natParse_natEnc,
        Option.some_bind]
      simp [parseArrN_arrEnc ih es rest (by omega)]
    | jobj fs =>
      simp only [depthV] at h
      simp only [valEnc, List.cons_append, List.append_assoc, parseVal, natParse_natEnc,
        Option.some_bind]
      simp [parseObjN_objEnc ih fs rest (by omega)]

mutual
theorem depthV_le_encLen : ∀ v : JValue, depthV v ≤ (valEnc v).length
  | .jnull => by simp [depthV, valEnc]
  | .jbool b => by simp [depthV, valEnc]
  | .jint i => by simp [depthV, valEnc]
  | .jstr s => by simp [depthV, valEnc]
  | .jarr es => by
    have h := depthA_le_encLen es
    simp only [depthV, valEnc, List.length_cons, List.length_append]
    omega
  | .jobj fs => by
    have h := depthO_le_encLen fs
    simp only [depthV, valEnc, List.length_cons, List.length_append]
    omega

theorem depthA_le_encLen : ∀ es : JArr, depthA es ≤ (arrEnc es).length
  | .nil => by simp [depthA, arrEnc]
  | .cons v vs => by
    have h1 := depthV_le_encLen v
    have h2 := depthA_le_encLen vs
    simp only [depthA, arrEnc, List.length_append]
    omega

theorem depthO_le_encLen : ∀ fs : JObj, depthO fs ≤ (objEnc fs).length
  | .nil => by simp [depthO, objEnc]
  | .cons k v vs => by
    have h1 := depthV_le_encLen v
    have h2 := depthO_le_encLen vs
    simp only [depthO, objEnc, List.length_append]
    omega
end

/-- Whole-buffer parse: the model of `decode(payload)` / `JSON.parse(text)`,
which fail on trailing garbage.  Fuel `length + 1` dominates the nesting
depth of any value whose encoding fits in the buffer. -/
def parseFull (bs : List Nat) : Option JValue :=
  match parseVal (bs.length + 1) bs with
  | some (v, []) => some v
  | _ => none

theorem parseFull_valEnc (v : JValue) : parseFull (valEnc v) = some v := by
  have h := parseVal_valEnc ((valEnc v).length + 1) v []
    (le_trans (depthV_le_encLen v) (by omega))
  simp only [List.append_nil] at h
  simp [parseFull, h]

/-! ### FrameCodec (`frame-codec.ts`)

Wire format: 4-byte big-endian payload length, 1 flags byte, payload.
Flags: bit 0 compressed, bits 1-2 format (00 msgpack, 01 JSON), rest
reserved.  Bytes are embedded as `List Nat` (each element < 256 where the
writers produce them). -/

/-- Header size: 4 bytes length + 1 byte flags. -/
def HEADER_SIZE : Nat := 5

def FLAG_COMPRESSED : Nat := 1

def FLAG_FORMAT_MSGPACK : Nat := 0

def FLAG_FORMAT_JSON : Nat := 2

/-- Maximum message size (16 MB). -/
def MAX_MESSAGE_SIZE : Nat := 16 * 1024 * 1024

inductive SerializationFormat where
  | msgpack
  | json
deriving DecidableEq

/-- The fields of `NamespacedMessage<T>`: `namespace`, `type`, and the
optional `payload`, `id`, `timestamp` (the `namespace` field is spelled
`ns` because `namespace` is a Lean keyword, `type` is spelled `ty`).
The opaque payload is an arbitrary dynamic value. -/
structure NamespacedMessage where
  ns : String
  ty : String
  payload : Option JValue
  id : Option String
  timestamp : Option Int

/-- The dynamic value of a `NamespacedMessage` object: its fields in
declaration order, optional fields absent when `undefined` (both
`JSON.stringify` and msgpack `encode` skip absent fields). -/
def toJValue (m : NamespacedMessage) : JValue :=
  .jobj (.cons "namespace" (.jstr m.ns) (.cons "type" (.jstr m.ty)
    (optField "payload" m.payload
      (optField "id" (m.id.map .jstr)
        (optField "timestamp" (m.timestamp.map .jint) .nil)))))
where optField (k : String) (v : Option JValue) (rest : JObj) : JObj :=
  match v with
  | some x => .cons k x rest
  | none => rest

/-- Reading a decoded value back as a `NamespacedMessage` (the source casts
the parsed object; this is the field-projection view of that cast, defined
when the fields are well-typed). -/
def msgOfJValue (v : JValue) : Option NamespacedMessage :=
  match jsGetField v "namespace", jsGetField v "type" with
  | some (.jstr ns), some (.jstr ty) =>
    some
      { ns := ns
        ty := ty
        payload := jsGetField v "payload"
        id := match jsGetField v "id" with
          | some (.jstr s) => some s
          | _ => none
        timestamp := match jsGetField v "timestamp" with
          | some (.jint i) => some i
          | _ => none }
  | _, _ => none

/-- Model of `Buffer.writeUInt32BE` (the writer requires the value to be
below `2^32`; the modulus makes the model total). -/
def writeUInt32BE (n : Nat) : List Nat :=
  [n / 16777216 % 256, n / 65536 % 256, n / 256 % 256, n % 256]

/-- Model of `buffer.readUInt32BE(0)`. -/
def readUInt32BE (bs : List Nat) : Nat :=
  bs.getD 0 0 * 16777216 + bs.getD 1 0 * 65536 + bs.getD 2 0 * 256 + bs.getD 3 0

inductive CodecError where
  | messageTooLarge (n : Nat)
  | compressedSync
  | unknownFormat (f : Nat)
  | parseError
  | invalidMessage
deriving DecidableEq

namespace FrameCodec

/-- `createFrame`: length header, flags byte, payload. -/
def createFrame (payload : List Nat) (flags : Nat) : List Nat :=
  writeUInt32BE payload.length ++ flags :: payload

/-- Serialization of the whole envelope for either format (msgpack `encode`
or `JSON.stringify`; both are modelled by the canonical serializer). -/
def serializeMessage (m : NamespacedMessage) : List Nat :=
  valEnc (toJValue m)

def formatFlags : SerializationFormat → Nat
  | .msgpack => FLAG_FORMAT_MSGPACK
  | .json => FLAG_FORMAT_JSON

/-- `FrameCodec.encode` (the synchronous path, which never compresses:
compression happens only in `encodeAsync` past the threshold). -/
def encode (m : NamespacedMessage) (format : SerializationFormat) : List Nat :=
  createFrame (serializeMessage m) (formatFlags format)

/-- The runtime validation in `FrameCodec.deserialize`:
`typeof parsed === 'object' && parsed !== null` (arrays included) and the
`namespace` and `type` properties are strings.  Note: only string-typedness
is checked, not non-emptiness. -/
def isValidMessage (v : JValue) : Bool :=
  (match v with
    | .jobj _ => true
    | .jarr _ => true
    | _ => false)
  && (match jsGetField v "namespace" with
    | some (.jstr _) => true
    | _ => false)
  && (match jsGetField v "type" with
    | some (.jstr _) => true
    | _ => false)

/-- `FrameCodec.deserialize`: parse per the format bits, then validate.
Parse failures of the underlying library throw; modelled as `parseError`. -/
def deserialize (payload : List Nat) (format : Nat) : Except CodecError JValue :=
  if format = FLAG_FORMAT_MSGPACK ∨ format = FLAG_FORMAT_JSON then
    match parseFull payload with
    | none => .error .parseError
    | some v =>
      if isValidMessage v then .ok v else .error .invalidMessage
  else .error (.unknownFormat format)

/-- The result of `decodeOne`: the decoded dynamic value (the source
returns the parsed object cast to `NamespacedMessage`), the byte count
consumed and the compression marker. -/
structure DecodeResult where
  message : JValue
  bytesConsumed : Nat
  wasCompressed : Bool

/-- `FrameCodec.decodeOne`: `ok none` means "need more bytes", `error`
models a throw.  `flags % 2` is `flags & FLAG_COMPRESSED` and
`flags / 2 % 4 * 2` is `flags & FLAG_FORMAT_MASK`. -/
def decodeOne (buffer : List Nat) : Except CodecError (Option DecodeResult) :=
  if buffer.length < HEADER_SIZE then .ok none
  else
    let payloadLength := readUInt32BE buffer
    let flags := buffer.getD 4 0
    if MAX_MESSAGE_SIZE < payloadLength then .error (.messageTooLarge payloadLength)
    else
      let totalLength := HEADER_SIZE + payloadLength
      if buffer.length < totalLength then .ok none
      else
        let payload := (buffer.drop HEADER_SIZE).take payloadLength
        if flags % 2 = FLAG_COMPRESSED then .error .compressedSync
        else
          (deserialize payload (flags / 2 % 4 * 2)).map fun msg =>
            some ⟨msg, totalLength, false⟩

end FrameCodec

theorem readUInt32BE_writeUInt32BE (n : Nat) (rest : List Nat) (h : n < 4294967296) :
    readUInt32BE (writeUInt32BE n ++ rest) = n := by
  simp only [writeUInt32BE, readUInt32BE, List.cons_append, List.nil_append,
    List.getD_cons_zero, List.getD_cons_succ]
  omega

theorem encode_length (m : NamespacedMessage) (fmt : SerializationFormat) :
    (FrameCodec.encode m fmt).length
      = HEADER_SIZE + (FrameCodec.serializeMessage m).length := by
  simp only [FrameCodec.encode, FrameCodec.createFrame, writeUInt32BE, HEADER_SIZE,
    List.length_append, List.length_cons, List.length_nil]
  omega

theorem isValidMessage_toJValue (m : NamespacedMessage) :
    FrameCodec.isValidMessage (toJValue m) = true := by
  simp [FrameCodec.isValidMessage, toJValue, jsGetField, jsGetField.go]

theorem msgOfJValue_toJValue (m : NamespacedMessage) :
    msgOfJValue (toJValue m) = some m := by
  obtain ⟨ns, ty, payload, id, timestamp⟩ := m
  cases payload <;> cases id <;> cases timestamp <;>
    simp [msgOfJValue, toJValue, toJValue.optField, jsGetField, jsGetField.go]

theorem decodeOne_createFrame (payload : List Nat) (flags : Nat)
    (hlen : payload.length ≤ MAX_MESSAGE_SIZE) (hcomp : flags % 2 ≠ 1) :
    FrameCodec.decodeOne (FrameCodec.createFrame payload flags)
      = (FrameCodec.deserialize payload (flags / 2 % 4 * 2)).map
          (fun msg => some ⟨msg, HEADER_SIZE + payload.length, false⟩) := by
  have hL : payload.length < 4294967296 :=
    lt_of_le_of_lt hlen (by norm_num [MAX_MESSAGE_SIZE])
  have hbuf : FrameCodec.createFrame payload flags
      = payload.length / 16777216 % 256 :: (payload.length / 65536 % 256 ::
        (payload.length / 256 % 256 :: (payload.length % 256 :: (flags :: payload)))) := by
    simp [FrameCodec.createFrame, writeUInt32BE]
  have hread :
      readUInt32BE (payload.length / 16777216 % 256 :: (payload.length / 65536 % 256 ::
        (payload.length / 256 % 256 :: (payload.length % 256 :: (flags :: payload)))))
      = payload.length := by
    simp only [readUInt32BE, List.getD_cons_zero, List.getD_cons_succ]
    omega
  rw [hbuf]
  simp only [FrameCodec.decodeOne, hread, List.length_cons, List.getD_cons_zero,
    List.getD_cons_succ]
  rw [if_neg (by simp only [HEADER_SIZE]; omega), if_neg (by omega),
    if_neg (by simp only [HEADER_SIZE]; omega)]
  have hdrop :
      List.drop HEADER_SIZE (payload.length / 16777216 % 256 ::
        (payload.length / 65536 % 256 :: (payload.length / 256 % 256 ::
          (payload.length % 256 :: (flags :: payload))))) = payload := rfl
  rw [hdrop, List.take_length, if_neg (by simpa [FLAG_COMPRESSED] using hcomp)]

/-- Round trip of `encode` and `decodeOne` for either serialization format,
given the serialized envelope fits the 16 MiB bound. -/
theorem decode_encode (m : NamespacedMessage) (fmt : SerializationFormat)
    (h : (FrameCodec.serializeMessage m).length ≤ MAX_MESSAGE_SIZE) :
    FrameCodec.decodeOne (FrameCodec.encode m fmt)
      = .ok (some ⟨toJValue m, (FrameCodec.encode m fmt).length, false⟩) := by
  have hflag : FrameCodec.formatFlags fmt % 2 ≠ 1 := by
    cases fmt <;> simp [FrameCodec.formatFlags, FLAG_FORMAT_MSGPACK, FLAG_FORMAT_JSON]
  rw [encode_length, FrameCodec.encode, decodeOne_createFrame _ _ h hflag]
  have hfmt : FrameCodec.formatFlags fmt / 2 % 4 * 2 = FLAG_FORMAT_MSGPACK
      ∨ FrameCodec.formatFlags fmt / 2 % 4 * 2 = FLAG_FORMAT_JSON := by
    cases fmt <;> simp [FrameCodec.formatFlags, FLAG_FORMAT_MSGPACK, FLAG_FORMAT_JSON]
  have hdes : FrameCodec.deserialize (FrameCodec.serializeMessage m)
      (FrameCodec.formatFlags fmt / 2 % 4 * 2) = .ok (toJValue m) := by
    rw [FrameCodec.deserialize, if_pos hfmt]
    rw [FrameCodec.serializeMessage, parseFull_valEnc]
    simp [isValidMessage_toJValue]
  rw [hdes]
  rfl

/-! ### Primary election (`primary-election.ts`)

The ranking used by `PrimaryElection.selectWinner`: candidates are sorted
with a comparator (user-designated first, then longer uptime, then
lexicographically smaller device id) and the first element wins. -/

structure ElectionCandidatePayload where
  deviceId : String
  uptime : Int
  userDesignated : Bool
deriving DecidableEq

namespace PrimaryElection

/-- The sort comparator of `selectWinner`, as a "sorts no later than"
test: `candLe a b` holds iff the comparator returns a non-positive value
on `(a, b)`.  `localeCompare` on device ids is embedded as code-point
lexicographic order. -/
def candLe (a b : ElectionCandidatePayload) : Bool :=
  if a.userDesignated ≠ b.userDesignated then a.userDesignated
  else if a.uptime ≠ b.uptime then decide (b.uptime < a.uptime)
  else decide (a.deviceId ≤ b.deviceId)

/-- `selectWinner`: sort the candidate list by the comparator (stable, as
`Array.prototype.sort` is) and take the first element; `none` on an empty
candidate set. -/
def selectWinner (candidates : List ElectionCandidatePayload) :
    Option ElectionCandidatePayload :=
  (candidates.mergeSort candLe).head?

/-- The ranking as a strict relation: `rankLT a b` iff the comparator ranks
`a` strictly before `b`. -/
def rankLT (a b : ElectionCandidatePayload) : Prop :=
  (a.userDesignated = true ∧ b.userDesignated = false)
  ∨ (a.userDesignated = b.userDesignated ∧ b.uptime < a.uptime)
  ∨ (a.userDesignated = b.userDesignated ∧ a.uptime = b.uptime
      ∧ a.deviceId < b.deviceId)

theorem candLe_trans (a b c : ElectionCandidatePayload) :
    candLe a b = true → candLe b c = true → candLe a c = true := by
  obtain ⟨ad, au, ag⟩ := a
  obtain ⟨bd, bu, bg⟩ := b
  obtain ⟨cd, cu, cg⟩ := c
  simp only [candLe]
  split_ifs <;>
    simp_all <;>
    first
      | omega
      | (intro h1 h2; exact le_trans h1 h2)
      | (cases ag <;> cases bg <;> cases cg <;> simp_all <;>
          first
            | omega
            | (intro h1 h2; exact le_trans h1 h2))

theorem candLe_total (a b : ElectionCandidatePayload) :
    candLe a b || candLe b a := by
  obtain ⟨ad, au, ag⟩ := a
  obtain ⟨bd, bu, bg⟩ := b
  simp only [candLe]
  split_ifs <;>
    simp_all <;>
    first
      | omega
      | exact le_total _ _
      | (cases ag <;> cases bg <;> simp_all <;>
          first
            | omega
            | exact le_total _ _)

theorem candLe_antisymm (a b : ElectionCandidatePayload) :
    candLe a b = true → candLe b a = true → a = b := by
  obtain ⟨ad, au, ag⟩ := a
  obtain ⟨bd, bu, bg⟩ := b
  simp only [candLe]
  split_ifs <;>
    simp_all <;>
    first
      | omega
      | (intro h1 h2; exact String.ext (le_antisymm h1 h2))
      | (cases ag <;> cases bg <;> simp_all <;>
          first
            | omega
            | (intro h1 h2; exact String.ext (le_antisymm h1 h2)))

theorem selectWinner_perm {l1 l2 : List ElectionCandidatePayload}
    (h : l1.Perm l2) : selectWinner l1 = selectWinner l2 := by
  have hs1 := @List.sorted_mergeSort _ candLe candLe_trans
    (fun a b => candLe_total a b) l1
  have hs2 := @List.sorted_mergeSort _ candLe candLe_trans
    (fun a b => candLe_total a b) l2
  have hperm : (l1.mergeSort candLe).Perm (l2.mergeSort candLe) :=
    ((List.mergeSort_perm l1 candLe).trans h).trans
      (List.mergeSort_perm l2 candLe).symm
  have heq : l1.mergeSort candLe = l2.mergeSort candLe :=
    @List.eq_of_perm_of_sorted _ (fun a b => candLe a b = true)
      ⟨candLe_antisymm⟩ _ _ hperm hs1 hs2
  simp [selectWinner, heq]

theorem rankLT_irrefl_aux (a : ElectionCandidatePayload) : ¬ rankLT a a := by
  simp [rankLT]

theorem rankLT_trans_aux (a b c : ElectionCandidatePayload) :
    rankLT a b → rankLT b c → rankLT a c := by
  rintro (⟨h1, h2⟩ | ⟨h1, h2⟩ | ⟨h1, h2, h3⟩) (⟨g1, g2⟩ | ⟨g1, g2⟩ | ⟨g1, g2, g3⟩)
  · rw [g1] at h2; exact absurd h2 (by simp)
  · exact Or.inl ⟨h1, g1 ▸ h2⟩
  · exact Or.inl ⟨h1, g1 ▸ h2⟩
  · exact Or.inl ⟨h1 ▸ g1, g2⟩
  · exact Or.inr (Or.inl ⟨h1.trans g1, lt_trans g2 h2⟩)
  · exact Or.inr (Or.inl ⟨h1.trans g1, g2 ▸ h2⟩)
  · exact Or.inl ⟨h1 ▸ g1, g2⟩
  · exact Or.inr (Or.inl ⟨h1.trans g1, h2 ▸ g2⟩)
  · exact Or.inr (Or.inr ⟨h1.trans g1, h2.trans g2, lt_trans h3 g3⟩)

theorem rankLT_trichotomy_aux (a b : ElectionCandidatePayload) :
    rankLT a b ∨ a = b ∨ rankLT b a := by
  obtain ⟨ad, au, ag⟩ := a
  obtain ⟨bd, bu, bg⟩ := b
  by_cases hg : ag = bg
  · by_cases hu : au = bu
    · rcases lt_trichotomy ad bd with h | h | h
      · exact Or.inl (Or.inr (Or.inr ⟨hg, hu, h⟩))
      · subst h; subst hg; subst hu; exact Or.inr (Or.inl rfl)
      · exact Or.inr (Or.inr (Or.inr (Or.inr ⟨hg.symm, hu.symm, h⟩)))
    · rcases lt_or_gt_of_ne hu with h | h
      · exact Or.inr (Or.inr (Or.inr (Or.inl ⟨hg.symm, h⟩)))
      · exact Or.inl (Or.inr (Or.inl ⟨hg, h⟩))
  · cases hag : ag <;> cases hbg : bg <;> simp_all [rankLT]

theorem mergeSort_pair {α : Type} (a b : α) (le : α → α → Bool) :
    [a, b].mergeSort le = if le a b then [a, b] else [b, a] := by
  rw [List.mergeSort]
  simp [List.splitInTwo, List.splitAt, List.splitAt.go, List.merge]

end PrimaryElection

/-! ### Connection transport (`packages/transport/src/index.ts`)

State of a `WebSocketTransport`: the connection map, the
`deviceId -> connectionId` index and the reconnect ledger.  Heartbeat and
reconnect timer handles and the per-connection metadata bag are omitted;
the scheduling of a reconnect is observable as the `reconnecting` event
(whose `delayMs` is the timer delay the source passes to `setTimeout`). -/

inductive ConnDirection where
  | incoming
  | outgoing
deriving DecidableEq

inductive ConnStatus where
  | connecting
  | connected
  | disconnected
deriving DecidableEq

structure InternalConnection where
  id : String
  deviceId : Option String
  direction : ConnDirection
  remoteAddr : String
  status : ConnStatus
  connectedAt : Option Nat
  lastActivityTime : Nat
deriving DecidableEq

structure ReconnectInfo where
  deviceId : String
  hostname : String
  dnsName : Option String
  port : Nat
  attempt : Nat
deriving DecidableEq

inductive TransportEvent where
  | connected (conn : InternalConnection)
  | disconnected (connectionId : String) (reason : String)
  | reconnecting (deviceId : String) (attempt : Nat) (delayMs : Nat)
  | deviceIdentified (connectionId : String) (deviceId : String)
deriving DecidableEq

structure TransportState where
  running : Bool
  autoReconnect : Bool
  maxReconnectDelayMs : Nat
  connections : List (String × InternalConnection)
  deviceToConnection : List (String × String)
  reconnects : List (String × ReconnectInfo)
deriving DecidableEq

namespace WebSocketTransport

/-- A fresh, started transport (`maxReconnectDelayMs` defaults to 30000,
`autoReconnect` to true). -/
def initial (autoReconnect : Bool) (maxReconnectDelayMs : Nat) : TransportState :=
  ⟨true, autoReconnect, maxReconnectDelayMs, [], [], []⟩

/-- `getConnectionByDeviceId`: index lookup then connection lookup. -/
def getConnectionByDeviceId (s : TransportState) (deviceId : String) :
    Option InternalConnection :=
  (alGet deviceId s.deviceToConnection).bind fun cid => alGet cid s.connections

/-- Whether `sendRaw(connectionId, data)` succeeds: the row must exist with
status `connected`; the sidecar send itself is modelled as not throwing. -/
def sendRawOk (s : TransportState) (connectionId : String) : Bool :=
  match alGet connectionId s.connections with
  | some conn => conn.status = .connected
  | none => false

/-- `scheduleReconnect`: bump the attempt counter and schedule with delay
`min(1000 * 2^(attempt-1), maxReconnectDelayMs)`. -/
def scheduleReconnect (s : TransportState) (deviceId : String) :
    TransportState × List TransportEvent :=
  if s.autoReconnect = false ∨ s.running = false then (s, [])
  else
    match alGet deviceId s.reconnects with
    | none => (s, [])
    | some info =>
      let attempt := info.attempt + 1
      let delayMs := min (1000 * 2 ^ (attempt - 1)) s.maxReconnectDelayMs
      ({ s with reconnects := alSet deviceId { info with attempt := attempt } s.reconnects },
        [.reconnecting deviceId attempt delayMs])

/-- `handleWsConnect`: insert an incoming row with no device binding,
already `connected`. -/
def handleWsConnect (s : TransportState) (tsnetConnectionId remoteAddr : String)
    (now : Nat) : TransportState × List TransportEvent :=
  let connectionId := "incoming:" ++ tsnetConnectionId
  let conn : InternalConnection :=
    ⟨connectionId, none, .incoming, remoteAddr, .connected, some now, now⟩
  ({ s with connections := alSet connectionId conn s.connections }, [.connected conn])

/-- `handleWsDisconnect`: drop the row and its index entry. -/
def handleWsDisconnect (s : TransportState) (tsnetConnectionId : String)
    (reason : Option String) : TransportState × List TransportEvent :=
  let connectionId := "incoming:" ++ tsnetConnectionId
  match alGet connectionId s.connections with
  | none => (s, [])
  | some conn =>
    ({ s with
        deviceToConnection :=
          match conn.deviceId with
          | some d => alDelete d s.deviceToConnection
          | none => s.deviceToConnection
        connections := alDelete connectionId s.connections },
      [.disconnected connectionId (reason.getD "remote_closed")])

/-- The synchronous part of `connect(deviceId, hostname, dnsName?, port)`:
return unchanged if a connected row for the device exists, else insert a
`connecting` placeholder, update the index, and reseed the reconnect
ledger (attempt 0) when auto-reconnect is on. -/
def connectInsert (s : TransportState) (deviceId hostname : String)
    (dnsName : Option String) (port : Nat) (now : Nat) : TransportState :=
  if s.running = false then s
  else if (getConnectionByDeviceId s deviceId).map (fun c => c.status)
      = some .connected then s
  else
    let connectionId := "dial:" ++ deviceId
    let conn : InternalConnection :=
      ⟨connectionId, some deviceId, .outgoing, hostname, .connecting, none, now⟩
    let rec1 := alDelete deviceId s.reconnects
    let rec2 :=
      if s.autoReconnect then alSet deviceId ⟨deviceId, hostname, dnsName, port, 0⟩ rec1
      else rec1
    { s with
      connections := alSet connectionId conn s.connections
      deviceToConnection := alSet deviceId connectionId s.deviceToConnection
      reconnects := rec2 }

/-- `handleDialConnected`: mark the dial row connected and reset the
reconnect attempt counter to 0. -/
def handleDialConnected (s : TransportState) (deviceId remoteAddr : String)
    (now : Nat) : TransportState × List TransportEvent :=
  let connectionId := "dial:" ++ deviceId
  match alGet connectionId s.connections with
  | none => (s, [])
  | some conn =>
    let conn2 := { conn with
      status := .connected, connectedAt := some now,
      remoteAddr := remoteAddr, lastActivityTime := now }
    let rec2 :=
      match alGet deviceId s.reconnects with
      | some info => alSet deviceId { info with attempt := 0 } s.reconnects
      | none => s.reconnects
    ({ s with connections := alSet connectionId conn2 s.connections, reconnects := rec2 },
      [.connected conn2])

/-- `handleDialDisconnect`: drop the row and index entry, emit
`disconnected`, then `scheduleReconnect`. -/
def handleDialDisconnect (s : TransportState) (deviceId : String)
    (reason : Option String) : TransportState × List TransportEvent :=
  let connectionId := "dial:" ++ deviceId
  match alGet connectionId s.connections with
  | none => (s, [])
  | some _ =>
    let s2 := { s with
      deviceToConnection := alDelete deviceId s.deviceToConnection
      connections := alDelete connectionId s.connections }
    let r := scheduleReconnect s2 deviceId
    (r.1, .disconnected connectionId (reason.getD "remote_closed") :: r.2)

/-- `setConnectionDeviceId`: bind (or re-bind) a connection to a device id
and update the bidirectional index. -/
def setConnectionDeviceId (s : TransportState) (connectionId deviceId : String) :
    TransportState × List TransportEvent :=
  match alGet connectionId s.connections with
  | none => (s, [])
  | some conn =>
    let idx1 :=
      match conn.deviceId with
      | some old => alDelete old s.deviceToConnection
      | none => s.deviceToConnection
    ({ s with
        connections := alSet connectionId { conn with deviceId := some deviceId } s.connections
        deviceToConnection := alSet deviceId connectionId idx1 },
      [.deviceIdentified connectionId deviceId])

/-- `closeConnection`: locally drop a row; no reconnect is scheduled. -/
def closeConnection (s : TransportState) (connectionId : String) :
    TransportState × List TransportEvent :=
  match alGet connectionId s.connections with
  | none => (s, [])
  | some conn =>
    ({ s with
        deviceToConnection :=
          match conn.deviceId with
          | some d => alDelete d s.deviceToConnection
          | none => s.deviceToConnection
        connections := alDelete connectionId s.connections },
      [.disconnected connectionId "closed_by_local"])

/-- `handleHeartbeatTimeout`: drop the row, emit `disconnected`, and for an
outgoing bound row schedule a reconnect. -/
def handleHeartbeatTimeout (s : TransportState) (connectionId : String) :
    TransportState × List TransportEvent :=
  match alGet connectionId s.connections with
  | none => (s, [])
  | some conn =>
    let s2 := { s with
      deviceToConnection :=
        match conn.deviceId with
        | some d => alDelete d s.deviceToConnection
        | none => s.deviceToConnection
      connections := alDelete connectionId s.connections }
    match conn.direction, conn.deviceId with
    | .outgoing, some d =>
      let r := scheduleReconnect s2 d
      (r.1, .disconnected connectionId "heartbeat_timeout" :: r.2)
    | _, _ => (s2, [.disconnected connectionId "heartbeat_timeout"])

/-- The transport entry points that mutate connection state. -/
inductive TOp where
  | wsConnect (tsnetConnectionId remoteAddr : String) (now : Nat)
  | wsDisconnect (tsnetConnectionId : String) (reason : Option String)
  | dial (deviceId hostname : String) (dnsName : Option String) (port : Nat) (now : Nat)
  | dialConnected (deviceId remoteAddr : String) (now : Nat)
  | dialDisconnect (deviceId : String) (reason : Option String)
  | identify (connectionId deviceId : String)
  | close (connectionId : String)
  | heartbeatTimeout (connectionId : String)

def applyTOp (s : TransportState) : TOp → TransportState
  | .wsConnect a b n => (handleWsConnect s a b n).1
  | .wsDisconnect a r => (handleWsDisconnect s a r).1
  | .dial d h dn p n => connectInsert s d h dn p n
  | .dialConnected d a n => (handleDialConnected s d a n).1
  | .dialDisconnect d r => (handleDialDisconnect s d r).1
  | .identify c d => (setConnectionDeviceId s c d).1
  | .close c => (closeConnection s c).1
  | .heartbeatTimeout c => (handleHeartbeatTimeout s c).1

/-- The state after the first `i` operations, starting from a fresh
transport with the default settings. -/
def stateAt (ops : List TOp) (i : Nat) : TransportState :=
  (ops.take i).foldl applyTOp (initial true 30000)

/-- Between two states, no connection changes an already-bound device id. -/
def DeviceIdImmutable (s s2 : TransportState) : Prop :=
  ∀ cid c c2 d, alGet cid s.connections = some c → c.deviceId = some d →
    alGet cid s2.connections = some c2 → c2.deviceId = some d

/-- The `deviceId <-> connectionId` map is 1-to-1 over `connected` rows:
no two connected rows share a device id, and a bound connected row is the
one its device id maps back to. -/
def ConnIndexOneToOne (s : TransportState) : Prop :=
  (∀ cid1 cid2 c1 c2 d,
      alGet cid1 s.connections = some c1 → alGet cid2 s.connections = some c2 →
      c1.status = .connected → c2.status = .connected →
      c1.deviceId = some d → c2.deviceId = some d → cid1 = cid2)
  ∧ (∀ cid c d, alGet cid s.connections = some c → c.status = .connected →
      c.deviceId = some d → alGet d s.deviceToConnection = some cid)

/-- Claim C5 as stated: along every operation sequence, device ids are
assigned at most once (immutable once bound) and the index is 1-to-1 over
connected rows. -/
def ClaimC5Prop : Prop :=
  ∀ (ops : List TOp) (i : Nat),
    DeviceIdImmutable (stateAt ops i) (stateAt ops (i + 1))
    ∧ ConnIndexOneToOne (stateAt ops i)

/-- Claim C8 as stated: on the n-th consecutive disconnect (attempt counter
n-1 beforehand, reason other than `service_stopped`) with the default
30000 ms cap, the scheduled delay equals `min(1000 * 2^(n-1), 30000)` AND
lies in the interval `[1000 * 2^(n-1), min(1000 * 2^(n-1), 30000)]`; and a
successful `dialConnected` resets the attempt counter to 0. -/
def ClaimC8Prop : Prop :=
  (∀ (s : TransportState) (d : String) (info : ReconnectInfo)
      (conn : InternalConnection) (reason : Option String),
    s.running = true → s.autoReconnect = true → s.maxReconnectDelayMs = 30000 →
    alGet d s.reconnects = some info →
    alGet ("dial:" ++ d) s.connections = some conn →
    reason ≠ some "service_stopped" →
    ∃ delayMs,
      TransportEvent.reconnecting d (info.attempt + 1) delayMs
          ∈ (handleDialDisconnect s d reason).2
      ∧ delayMs = min (1000 * 2 ^ info.attempt) 30000
      ∧ 1000 * 2 ^ info.attempt ≤ delayMs
      ∧ delayMs ≤ min (1000 * 2 ^ info.attempt) 30000)
  ∧ (∀ (s : TransportState) (d remoteAddr : String) (now : Nat)
      (conn : InternalConnection) (info : ReconnectInfo),
    alGet ("dial:" ++ d) s.connections = some conn →
    alGet d s.reconnects = some info →
    alGet d (handleDialConnected s d remoteAddr now).1.reconnects
      = some { info with attempt := 0 })

end WebSocketTransport

theorem alGet_eq_none_of_not_mem {β : Type} (k : String) :
    ∀ l : List (String × β), k ∉ l.map Prod.fst → alGet k l = none
  | [], _ => rfl
  | (k1, v1) :: rest, h => by
    simp only [List.map_cons, List.mem_cons] at h
    push_neg at h
    have h1 : k1 ≠ k := fun hh => h.1 hh.symm
    simp [alGet, h1, alGet_eq_none_of_not_mem k rest h.2]

theorem alGet_alDelete_self {β : Type} (k : String) :
    ∀ l : List (String × β), (l.map Prod.fst).Nodup → alGet k (alDelete k l) = none
  | [], _ => rfl
  | (k1, v1) :: rest, h => by
    simp only [List.map_cons, List.nodup_cons] at h
    by_cases hk : k1 = k
    · subst hk
      simp only [alDelete, if_pos rfl]
      exact alGet_eq_none_of_not_mem k1 rest h.1
    · simp [alDelete, alGet, hk, alGet_alDelete_self k rest h.2]

/-- C5: the claim fails — `setConnectionDeviceId` freely re-binds a
connection that already holds a device id, so the binding is not immutable:
after `wsConnect` and two `setConnectionDeviceId` calls the same incoming
connection moves from device id `"a"` to `"b"`. -/
theorem C5_counterexample : ¬ WebSocketTransport.ClaimC5Prop := by
  intro h
  have h2 := (h [.wsConnect "c1" "addr" 0, .identify "incoming:c1" "a",
    .identify "incoming:c1" "b"] 2).1
  have hc := h2 "incoming:c1"
    ⟨"incoming:c1", some "a", .incoming, "addr", .connected, some 0, 0⟩
    ⟨"incoming:c1", some "b", .incoming, "addr", .connected, some 0, 0⟩
    "a" (by decide) (by decide) (by decide)
  exact absurd hc (by decide)

/-- C5 (amended): `setConnectionDeviceId` re-binds rather than enforcing
immutability: afterwards the connection holds the new device id, the index
maps the new id to this connection, and the connection's previous id (if
different) is dropped from the index — the index maps each device id to at
most one (the most recently bound) connection, but a bound device id need
not map back to every connected connection holding it. -/
theorem C5_rebind_semantics (s : TransportState) (cid d : String)
    (conn : InternalConnection)
    (hc : alGet cid s.connections = some conn)
    (hnodup : (s.deviceToConnection.map Prod.fst).Nodup) :
    alGet cid (WebSocketTransport.setConnectionDeviceId s cid d).1.connections
        = some { conn with deviceId := some d }
    ∧ alGet d (WebSocketTransport.setConnectionDeviceId s cid d).1.deviceToConnection
        = some cid
    ∧ (∀ old, conn.deviceId = some old → old ≠ d →
        alGet old
          (WebSocketTransport.setConnectionDeviceId s cid d).1.deviceToConnection
          = none)
    ∧ TransportEvent.deviceIdentified cid d
        ∈ (WebSocketTransport.setConnectionDeviceId s cid d).2 := by
  simp only [WebSocketTransport.setConnectionDeviceId, hc]
  refine ⟨alGet_alSet_self _ _ _, alGet_alSet_self _ _ _, ?_, by simp⟩
  intro old hold hne
  rw [hold, alGet_alSet_ne _ _ hne]
  exact alGet_alDelete_self old _ hnodup

theorem C5_rebind_semantics_witness :
    alGet "b"
      (WebSocketTransport.setConnectionDeviceId
        ⟨true, true, 30000, [("c", ⟨"c", some "a", .incoming, "r", .connected, some 0, 0⟩)],
          [("a", "c")], []⟩ "c" "b").1.deviceToConnection = some "c" :=
  (C5_rebind_semantics
    ⟨true, true, 30000, [("c", ⟨"c", some "a", .incoming, "r", .connected, some 0, 0⟩)],
      [("a", "c")], []⟩ "c" "b"
    ⟨"c", some "a", .incoming, "r", .connected, some 0, 0⟩
    (by decide) (by decide)).2.1

/-- C8: the claim fails in its interval clause — at the 6th consecutive
disconnect (attempt counter 5) the scheduled delay is the cap 30000 ms,
which does not lie in the stated interval `[1000 * 2^5, min(1000 * 2^5, 30000)]
= [32000, 30000]`. -/
theorem C8_counterexample : ¬ WebSocketTransport.ClaimC8Prop := by
  intro h
  obtain ⟨delayMs, _, heq, hlow, _⟩ := h.1
    ⟨true, true, 30000,
      [("dial:d", ⟨"dial:d", some "d", .outgoing, "h", .connected, some 0, 0⟩)],
      [("d", "dial:d")], [("d", ⟨"d", "h", none, 443, 5⟩)]⟩
    "d" ⟨"d", "h", none, 443, 5⟩
    ⟨"dial:d", some "d", .outgoing, "h", .connected, some 0, 0⟩
    (some "peer_gone") rfl rfl rfl (by decide) (by decide) (by decide)
  have h30 : delayMs = 30000 := by rw [heq]; norm_num
  rw [h30] at hlow
  norm_num at hlow

/-- C8 (amended): on the n-th consecutive disconnect of a registered
outgoing connection the transport schedules a reconnect whose delay equals
`min(1000 * 2^(n-1), maxReconnectDelayMs)` — so the delay is at most
`1000 * 2^(n-1)` and at most the cap (it need not be at least
`1000 * 2^(n-1)` once that exceeds the cap) — and a successful
`dialConnected` resets the attempt counter to 0. -/
theorem C8_backoff_amended :
    (∀ (s : TransportState) (d : String) (info : ReconnectInfo)
        (conn : InternalConnection) (reason : Option String),
      s.running = true → s.autoReconnect = true →
      alGet d s.reconnects = some info →
      alGet ("dial:" ++ d) s.connections = some conn →
      TransportEvent.reconnecting d (info.attempt + 1)
          (min (1000 * 2 ^ info.attempt) s.maxReconnectDelayMs)
          ∈ (WebSocketTransport.handleDialDisconnect s d reason).2
      ∧ min (1000 * 2 ^ info.attempt) s.maxReconnectDelayMs ≤ 1000 * 2 ^ info.attempt
      ∧ min (1000 * 2 ^ info.attempt) s.maxReconnectDelayMs ≤ s.maxReconnectDelayMs
      ∧ alGet d (WebSocketTransport.handleDialDisconnect s d reason).1.reconnects
          = some { info with attempt := info.attempt + 1 })
    ∧ (∀ (s : TransportState) (d remoteAddr : String) (now : Nat)
        (conn : InternalConnection) (info : ReconnectInfo),
      alGet ("dial:" ++ d) s.connections = some conn →
      alGet d s.reconnects = some info →
      alGet d (WebSocketTransport.handleDialConnected s d remoteAddr now).1.reconnects
        = some { info with attempt := 0 }) := by
  constructor
  · intro s d info conn reason hrun hauto hinfo hconn
    simp only [WebSocketTransport.handleDialDisconnect, hconn,
      WebSocketTransport.scheduleReconnect, hauto, hrun]
    simp only [hinfo, Nat.add_sub_cancel]
    refine ⟨by simp, min_le_left _ _, min_le_right _ _, ?_⟩
    exact alGet_alSet_self _ _ _
  · intro s d remoteAddr now conn info hconn hinfo
    simp only [WebSocketTransport.handleDialConnected, hconn, hinfo]
    exact alGet_alSet_self _ _ _

theorem C8_backoff_amended_witness :
    TransportEvent.reconnecting "d" 1 1000
      ∈ (WebSocketTransport.handleDialDisconnect
          ⟨true, true, 30000,
            [("dial:d", ⟨"dial:d", some "d", .outgoing, "h", .connected, some 0, 0⟩)],
            [("d", "dial:d")], [("d", ⟨"d", "h", none, 443, 0⟩)]⟩
          "d" (some "peer_gone")).2 :=
  (C8_backoff_amended.1
    ⟨true, true, 30000,
      [("dial:d", ⟨"dial:d", some "d", .outgoing, "h", .connected, some 0, 0⟩)],
      [("d", "dial:d")], [("d", ⟨"d", "h", none, 443, 0⟩)]⟩
    "d" ⟨"d", "h", none, 443, 0⟩
    ⟨"dial:d", some "d", .outgoing, "h", .connected, some 0, 0⟩
    (some "peer_gone") rfl rfl (by decide) (by decide)).1

/-! ### Mesh node send / broadcast (`mesh-node.ts`)

`sendEnvelope` / `broadcastEnvelope` over an abstract node state: the local
device id, the election's `primaryId`, and the transport state.  The
election is configured with the local device id, so `isPrimary()` is
`primaryId === localDeviceId`.  Effects (event emissions and raw sends)
are returned explicitly; the JSON text handed to `sendRaw` is represented
by the timestamped envelope it prints. -/

mutual
inductive MeshEnvelope where
  | mk (ns ty : String) (payload : MeshPayload) (timestamp : Option Nat) : MeshEnvelope

inductive MeshPayload where
  | value (v : JValue) : MeshPayload
  | routeMessage (targetDeviceId : String) (envelope : MeshEnvelope) : MeshPayload
  | routeBroadcast (envelope : MeshEnvelope) : MeshPayload
end

def MeshEnvelope.ns : MeshEnvelope → String
  | .mk n _ _ _ => n

def MeshEnvelope.ty : MeshEnvelope → String
  | .mk _ t _ _ => t

def MeshEnvelope.payload : MeshEnvelope → MeshPayload
  | .mk _ _ p _ => p

def MeshEnvelope.timestamp : MeshEnvelope → Option Nat
  | .mk _ _ _ ts => ts

structure MeshNodeState where
  localDeviceId : String
  electionPrimaryId : Option String
  transport : TransportState

namespace MeshNode

/-- `isPrimary()`: the election's primary id equals the local device id. -/
def isPrimary (st : MeshNodeState) : Bool :=
  st.electionPrimaryId = some st.localDeviceId

inductive SendEffect where
  | localMessage (src : String) (connectionId : String) (ns ty : String)
      (payload : MeshPayload)
  | rawSend (connectionId : String) (data : MeshEnvelope)

/-- The `JSON.stringify({...envelope, timestamp: envelope.timestamp ?? Date.now()})`
data handed to `sendRaw`. -/
def stamped (envelope : MeshEnvelope) (now : Nat) : MeshEnvelope :=
  .mk envelope.ns envelope.ty envelope.payload (some (envelope.timestamp.getD now))

/-- `sendEnvelopeDirect`: look the device up in the transport and `sendRaw`
the serialized envelope on its connection. -/
def sendEnvelopeDirect (st : MeshNodeState) (deviceId : String)
    (envelope : MeshEnvelope) (now : Nat) : Bool × List SendEffect :=
  match WebSocketTransport.getConnectionByDeviceId st.transport deviceId with
  | none => (false, [])
  | some conn =>
    if WebSocketTransport.sendRawOk st.transport conn.id
    then (true, [.rawSend conn.id (stamped envelope now)])
    else (false, [])

/-- `sendEnvelope(deviceId, envelope)`: loopback to self; else direct when a
connection for the target is indexed; else, when not primary and a primary
is known, wrap in `mesh/route:message` and send to the primary; else fail. -/
def sendEnvelope (st : MeshNodeState) (deviceId : String) (envelope : MeshEnvelope)
    (now : Nat) : Bool × List SendEffect :=
  if deviceId = st.localDeviceId then
    (true, [.localMessage st.localDeviceId "local" envelope.ns envelope.ty envelope.payload])
  else
    match WebSocketTransport.getConnectionByDeviceId st.transport deviceId with
    | some _ => sendEnvelopeDirect st deviceId envelope now
    | none =>
      if isPrimary st = false then
        match st.electionPrimaryId with
        | some primaryId =>
          sendEnvelopeDirect st primaryId
            (.mk "mesh" "route:message" (.routeMessage deviceId envelope) none) now
        | none => (false, [])
      else (false, [])

/-- `broadcastEnvelope(envelope)`: a primary sends to every bound connected
connection and surfaces the envelope locally; a secondary wraps in
`mesh/route:broadcast` to the primary; with no known primary nothing
happens. -/
def broadcastEnvelope (st : MeshNodeState) (envelope : MeshEnvelope) (now : Nat) :
    List SendEffect :=
  if isPrimary st then
    (st.transport.connections.foldr
      (fun p acc =>
        (match p.2.deviceId, p.2.status with
          | some d, .connected => (sendEnvelopeDirect st d envelope now).2
          | _, _ => []) ++ acc)
      [])
    ++ [.localMessage st.localDeviceId "local" envelope.ns envelope.ty envelope.payload]
  else
    match st.electionPrimaryId with
    | some primaryId =>
      (sendEnvelopeDirect st primaryId
        (.mk "mesh" "route:broadcast" (.routeBroadcast envelope) none) now).2
    | none => []

/-- `MeshMessageBus.publish`: wrap in a `{namespace, type, payload}` envelope
and forward to `sendEnvelope`, returning its boolean. -/
def publish (st : MeshNodeState) (deviceId ns ty : String) (payload : JValue)
    (now : Nat) : Bool × List SendEffect :=
  sendEnvelope st deviceId (.mk ns ty (.value payload) none) now

end MeshNode

/-- C3: `sendEnvelope` by cases — loopback returns true and surfaces
locally; an indexed target connection gets the envelope sent directly on it
(when connected); otherwise a non-primary with a known primary sends a
`mesh/route:message` wrapping `{targetDeviceId, envelope}` to the primary
instead; otherwise false with no effects; and the bus's `publish` is
`sendEnvelope` on the wrapped envelope, returning `false` in the same
situations. -/
theorem C3_sendEnvelope_cases :
    (∀ (st : MeshNodeState) (t : String) (e : MeshEnvelope) (now : Nat),
      t = st.localDeviceId →
      MeshNode.sendEnvelope st t e now
        = (true, [.localMessage st.localDeviceId "local" e.ns e.ty e.payload]))
    ∧ (∀ (st : MeshNodeState) (t : String) (e : MeshEnvelope) (now : Nat)
        (conn : InternalConnection),
      t ≠ st.localDeviceId →
      WebSocketTransport.getConnectionByDeviceId st.transport t = some conn →
      MeshNode.sendEnvelope st t e now = MeshNode.sendEnvelopeDirect st t e now
      ∧ (alGet conn.id st.transport.connections = some conn →
          conn.status = .connected →
          MeshNode.sendEnvelope st t e now
            = (true, [.rawSend conn.id (MeshNode.stamped e now)])))
    ∧ (∀ (st : MeshNodeState) (t : String) (e : MeshEnvelope) (now : Nat) (p : String),
      t ≠ st.localDeviceId →
      WebSocketTransport.getConnectionByDeviceId st.transport t = none →
      MeshNode.isPrimary st = false →
      st.electionPrimaryId = some p →
      MeshNode.sendEnvelope st t e now
        = MeshNode.sendEnvelopeDirect st p
            (.mk "mesh" "route:message" (.routeMessage t e) none) now)
    ∧ (∀ (st : MeshNodeState) (t : String) (e : MeshEnvelope) (now : Nat),
      t ≠ st.localDeviceId →
      WebSocketTransport.getConnectionByDeviceId st.transport t = none →
      (MeshNode.isPrimary st = true ∨ st.electionPrimaryId = none) →
      MeshNode.sendEnvelope st t e now = (false, []))
    ∧ (∀ (st : MeshNodeState) (t ns ty : String) (payload : JValue) (now : Nat),
      MeshNode.publish st t ns ty payload now
        = MeshNode.sendEnvelope st t (.mk ns ty (.value payload) none) now) := by
  refine ⟨?_, ?_, ?_, ?_, ?_⟩
  · intro st t e now h
    simp [MeshNode.sendEnvelope, h]
  · intro st t e now conn hne hconn
    constructor
    · simp [MeshNode.sendEnvelope, hne, hconn]
    · intro hid hst
      simp only [MeshNode.sendEnvelope, if_neg hne, hconn, MeshNode.sendEnvelopeDirect]
      simp [WebSocketTransport.sendRawOk, hid, hst]
  · intro st t e now p hne hconn hprim hpid
    simp [MeshNode.sendEnvelope, hne, hconn, hprim, hpid]
  · intro st t e now hne hconn hor
    rcases hor with hp | hp <;>
      simp [MeshNode.sendEnvelope, hne, hconn, hp, MeshNode.isPrimary] <;>
      simp_all [MeshNode.isPrimary]
  · intro st t ns ty payload now
    rfl

theorem C3_sendEnvelope_cases_witness :
    MeshNode.sendEnvelope ⟨"L", none, WebSocketTransport.initial true 30000⟩ "L"
        (.mk "events" "x" (.value .jnull) none) 0
      = (true, [.localMessage "L" "local" "events" "x" (.value .jnull)]) :=
  C3_sendEnvelope_cases.1 ⟨"L", none, WebSocketTransport.initial true 30000⟩ "L"
    (.mk "events" "x" (.value .jnull) none) 0 rfl

/-- C10: `broadcastEnvelope` on a node that is not primary and has no known
primary silently discards the envelope — no raw send on any connection, no
local message event, no error, and the call returns normally. -/
theorem C10_broadcast_silent_discard (st : MeshNodeState) (e : MeshEnvelope)
    (now : Nat) (h1 : MeshNode.isPrimary st = false)
    (h2 : st.electionPrimaryId = none) :
    MeshNode.broadcastEnvelope st e now = [] := by
  simp [MeshNode.broadcastEnvelope, h1, h2]

theorem C10_broadcast_silent_discard_witness :
    MeshNode.broadcastEnvelope ⟨"L", none, WebSocketTransport.initial true 30000⟩
      (.mk "events" "x" (.value .jnull) none) 0 = [] :=
  C10_broadcast_silent_discard ⟨"L", none, WebSocketTransport.initial true 30000⟩
    (.mk "events" "x" (.value .jnull) none) 0 rfl rfl

/-! ### Device table (`device-manager.ts`)

`BaseDevice` per `BaseDeviceSchema` (the opaque `metadata` record and
`latencyMs` are omitted; the `type` field keeps its name).  JavaScript
optional strings are `Option String`; an empty string is falsy, which
`optTruthy` captures. -/

inductive DeviceRole where
  | primary
  | secondary
deriving DecidableEq

inductive DeviceStatus where
  | online
  | offline
  | connecting
deriving DecidableEq

structure BaseDevice where
  id : String
  type : String
  name : String
  tailscaleHostname : String
  tailscaleDNSName : Option String
  tailscaleIP : Option String
  role : Option DeviceRole
  status : DeviceStatus
  capabilities : List String
  lastSeen : Option Nat
  startedAt : Option Nat
  os : Option String
deriving DecidableEq

structure TailnetPeer where
  id : String
  hostname : String
  dnsName : String
  tailscaleIPs : List String
  online : Bool
  os : Option String
deriving DecidableEq

structure DeviceAnnouncePayload where
  device : BaseDevice
  protocolVersion : Nat
deriving DecidableEq

structure DeviceListPayload where
  devices : List BaseDevice
  primaryId : String
deriving DecidableEq

/-- JavaScript truthiness of an optional string: `undefined` and `''` are
falsy. -/
def optTruthy : Option String → Bool
  | some s => !s.isEmpty
  | none => false

def dropPref : List Char → List Char → Option (List Char)
  | [], rest => some rest
  | _ :: _, [] => none
  | p :: ps, c :: cs => if p = c then dropPref ps cs else none

/-- `parseHostname(prefix, hostname)`: the regex
`^{prefix}-([^-]+)-(.+)$` — the hostname must start with `prefix + "-"`,
the type is the (non-empty) run up to the next `-`, the id is the
(non-empty) remainder and may contain `-`. -/
def parseHostname (pre hostname : String) : Option (String × String) :=
  match dropPref (pre.toList ++ ['-']) hostname.toList with
  | none => none
  | some rest =>
    let ty := rest.takeWhile (fun c => c ≠ '-')
    if ty.isEmpty then none
    else
      match rest.dropWhile (fun c => c ≠ '-') with
      | '-' :: c :: cs => some (String.mk ty, String.mk (c :: cs))
      | _ => none

structure DeviceIdentity where
  id : String
  type : String
  name : String
  tailscaleHostname : String
deriving DecidableEq

inductive DMEvent where
  | deviceDiscovered (device : BaseDevice)
  | deviceUpdated (device : BaseDevice)
  | deviceOffline (deviceId : String)
  | devicesChanged (devices : List BaseDevice)
  | primaryChanged (primaryId : Option String)
  | localDeviceChanged (device : BaseDevice)
deriving DecidableEq

/-- `DeviceManager` state: local identity, configured hostname prefix
(`hostnamePre`), the local device, the remote device map and `primaryId`. -/
structure DMState where
  identity : DeviceIdentity
  hostnamePre : String
  localDevice : BaseDevice
  devices : List (String × BaseDevice)
  primaryId : Option String
deriving DecidableEq

namespace DeviceManager

def getDevices (devices : List (String × BaseDevice)) : List BaseDevice :=
  devices.map Prod.snd

/-- `addDiscoveredPeer`: skip self and non-matching hostnames; insert a new
device, or update an existing one — status, IP and `dnsName` are taken from
the peer entry (the dnsName unconditionally), `os` only when truthy. -/
def addDiscoveredPeer (s : DMState) (peer : TailnetPeer) :
    DMState × List DMEvent × Option BaseDevice :=
  if peer.hostname = s.identity.tailscaleHostname then (s, [], none)
  else
    match parseHostname s.hostnamePre peer.hostname with
    | none => (s, [], none)
    | some parsed =>
      match alGet parsed.2 s.devices with
      | none =>
        let device : BaseDevice :=
          { id := parsed.2, type := parsed.1, name := peer.hostname
            tailscaleHostname := peer.hostname
            tailscaleDNSName := some peer.dnsName
            tailscaleIP := peer.tailscaleIPs.head?
            role := none
            status := if peer.online then .online else .offline
            capabilities := [], lastSeen := none, startedAt := none
            os := peer.os }
        let devices2 := alSet parsed.2 device s.devices
        ({ s with devices := devices2 },
          [.deviceDiscovered device, .devicesChanged (getDevices devices2)],
          some device)
      | some existing =>
        let updated := { existing with
          status := if peer.online then DeviceStatus.online else DeviceStatus.offline
          tailscaleIP := peer.tailscaleIPs.head?
          tailscaleDNSName := some peer.dnsName
          os := match peer.os with
            | some o => if o.isEmpty then existing.os else some o
            | none => existing.os }
        let devices2 := alSet parsed.2 updated s.devices
        ({ s with devices := devices2 },
          [.deviceUpdated updated, .devicesChanged (getDevices devices2)],
          some updated)

/-- `handleDeviceAnnounce`: insert/replace the announced device, keeping a
previously-known truthy `dnsName` when the announce's is falsy. -/
def handleDeviceAnnounce (s : DMState) (fromId : String)
    (payload : DeviceAnnouncePayload) : DMState × List DMEvent :=
  let device := payload.device
  let existing := alGet device.id s.devices
  let prevDns := existing.bind fun e => e.tailscaleDNSName
  let device2 :=
    if optTruthy prevDns = true ∧ optTruthy device.tailscaleDNSName = false
    then { device with tailscaleDNSName := prevDns } else device
  let devices2 := alSet device.id device2 s.devices
  ({ s with devices := devices2 },
    (match existing with
      | none => [DMEvent.deviceDiscovered device2]
      | some _ => [DMEvent.deviceUpdated device2])
    ++ [.devicesChanged (getDevices devices2)])

/-- The upsert loop of `handleDeviceList`: skip the local device, preserve
a known truthy `dnsName` when the listed one is falsy. -/
def upsertListDevices (localId : String) :
    List BaseDevice → List (String × BaseDevice) → List (String × BaseDevice)
  | [], acc => acc
  | device :: rest, acc =>
    if device.id = localId then upsertListDevices localId rest acc
    else
      let prevDns := (alGet device.id acc).bind fun e => e.tailscaleDNSName
      let device2 :=
        if optTruthy prevDns = true ∧ optTruthy device.tailscaleDNSName = false
        then { device with tailscaleDNSName := prevDns } else device
      upsertListDevices localId rest (alSet device.id device2 acc)

/-- `handleDeviceList`: upsert every non-local device; when the payload's
`primaryId` is truthy, adopt it, set the local role and every device's role
accordingly, and fire `primaryChanged`. -/
def handleDeviceList (s : DMState) (fromId : String) (payload : DeviceListPayload) :
    DMState × List DMEvent :=
  let devices2 := upsertListDevices s.identity.id payload.devices s.devices
  if payload.primaryId.isEmpty then
    ({ s with devices := devices2 }, [.devicesChanged (getDevices devices2)])
  else
    let localRole : DeviceRole :=
      if payload.primaryId = s.identity.id then .primary else .secondary
    let local2 := { s.localDevice with role := some localRole }
    let devices3 := devices2.map fun p =>
      (p.1, { p.2 with
        role := some (if p.2.id = payload.primaryId
          then DeviceRole.primary else DeviceRole.secondary) })
    ({ s with
        devices := devices3
        primaryId := some payload.primaryId
        localDevice := local2 },
      [.primaryChanged (some payload.primaryId),
        .devicesChanged (getDevices devices3)])

/-- `markDeviceOffline`: set the device offline; when it was the primary,
clear `primaryId` and fire `primaryChanged(null)`. -/
def markDeviceOffline (s : DMState) (deviceId : String) : DMState × List DMEvent :=
  match alGet deviceId s.devices with
  | none => (s, [])
  | some device =>
    let device2 := { device with status := DeviceStatus.offline }
    let devices2 := alSet deviceId device2 s.devices
    if s.primaryId = some deviceId then
      ({ s with devices := devices2, primaryId := none },
        [.deviceOffline deviceId, .devicesChanged (getDevices devices2),
          .primaryChanged none])
    else
      ({ s with devices := devices2 },
        [.deviceOffline deviceId, .devicesChanged (getDevices devices2)])

/-- `handleDeviceGoodbye` delegates to `markDeviceOffline`. -/
def handleDeviceGoodbye (s : DMState) (deviceId : String) : DMState × List DMEvent :=
  markDeviceOffline s deviceId

/-- The device-table operations of claim C4. -/
inductive DMOp where
  | discovered (peer : TailnetPeer)
  | announce (fromId : String) (payload : DeviceAnnouncePayload)
  | list (fromId : String) (payload : DeviceListPayload)
  | goodbye (deviceId : String)
  | offline (deviceId : String)

def applyDMOp (s : DMState) : DMOp → DMState × List DMEvent
  | .discovered peer =>
    let r := addDiscoveredPeer s peer
    (r.1, r.2.1)
  | .announce f p => handleDeviceAnnounce s f p
  | .list f p => handleDeviceList s f p
  | .goodbye d => handleDeviceGoodbye s d
  | .offline d => markDeviceOffline s d

def runDMOps (s : DMState) : List DMOp → DMState
  | [] => s
  | op :: ops => runDMOps (applyDMOp s op).1 ops

/-- The membership half of the claimed invariant: a set `primaryId` names
the local device or a device in the table. -/
def PrimaryInTable (s : DMState) : Prop :=
  ∀ p, s.primaryId = some p → p = s.identity.id ∨ (alGet p s.devices).isSome

/-- Claim C4, first half: the membership invariant is preserved by every
operation sequence. -/
def ClaimC4Inv : Prop :=
  ∀ (s : DMState) (ops : List DMOp),
    PrimaryInTable s → PrimaryInTable (runDMOps s ops)

/-- Claim C4, second half: any operation that transitions the remote
device named by `primaryId` to offline also unsets `primaryId` and fires
`primaryChanged(null)`. -/
def ClaimC4Offline : Prop :=
  ∀ (s : DMState) (op : DMOp) (p : String) (d d2 : BaseDevice),
    s.primaryId = some p → p ≠ s.identity.id →
    alGet p s.devices = some d → d.status ≠ .offline →
    alGet p (applyDMOp s op).1.devices = some d2 → d2.status = .offline →
    (applyDMOp s op).1.primaryId = none
    ∧ DMEvent.primaryChanged none ∈ (applyDMOp s op).2

def ClaimC4Prop : Prop := ClaimC4Inv ∧ ClaimC4Offline

/-- The restriction under which `handleDeviceList` keeps the membership
invariant: its `primaryId` names the local device, a listed device, or a
device already known. -/
def goodListPayload (s : DMState) (payload : DeviceListPayload) : Prop :=
  payload.primaryId = s.identity.id
  ∨ payload.primaryId ∈ payload.devices.map (fun d => d.id)
  ∨ (alGet payload.primaryId s.devices).isSome = true

def DMOpSafe (s : DMState) : DMOp → Prop
  | .list _ p => goodListPayload s p
  | _ => True

def DMOpsSafe : DMState → List DMOp → Prop
  | _, [] => True
  | s, op :: ops => DMOpSafe s op ∧ DMOpsSafe (applyDMOp s op).1 ops

theorem upsert_preserves_isSome (localId k : String) :
    ∀ (ds : List BaseDevice) (acc : List (String × BaseDevice)),
      (alGet k acc).isSome → (alGet k (upsertListDevices localId ds acc)).isSome
  | [], _, h => h
  | device :: rest, acc, h => by
    simp only [upsertListDevices]
    by_cases hl : device.id = localId
    · simp only [if_pos hl]
      exact upsert_preserves_isSome localId k rest acc h
    · simp only [if_neg hl]
      exact upsert_preserves_isSome localId k rest _ (alGet_isSome_alSet _ _ _ _ h)

theorem upsert_mem_isSome (localId k : String) :
    ∀ (ds : List BaseDevice) (acc : List (String × BaseDevice)),
      k ∈ ds.map (fun d => d.id) → k ≠ localId →
      (alGet k (upsertListDevices localId ds acc)).isSome
  | [], _, h, _ => by simp at h
  | device :: rest, acc, h, hne => by
    simp only [List.map_cons, List.mem_cons] at h
    simp only [upsertListDevices]
    by_cases hl : device.id = localId
    · rcases h with h | h
      · exact absurd (h.trans hl) hne
      · simp only [if_pos hl]
        exact upsert_mem_isSome localId k rest acc h hne
    · simp only [if_neg hl]
      rcases h with h | h
      · subst h
        exact upsert_preserves_isSome _ _ rest _
          (by simp [alGet_alSet_self])
      · exact upsert_mem_isSome localId k rest _ h hne

theorem alGet_isSome_roleMap (pid k : String) :
    ∀ l : List (String × BaseDevice), (alGet k l).isSome →
      (alGet k (l.map fun p =>
        (p.1, { p.2 with role := some (if p.2.id = pid
          then DeviceRole.primary else DeviceRole.secondary) }))).isSome
  | [], h => h
  | (k1, v1) :: rest, h => by
    by_cases hk : k1 = k
    · simp [alGet, hk]
    · simp only [alGet, if_neg hk, List.map_cons] at h ⊢
      exact alGet_isSome_roleMap pid k rest h

theorem addDiscoveredPeer_primaryId (s : DMState) (peer : TailnetPeer) :
    (addDiscoveredPeer s peer).1.primaryId = s.primaryId := by
  simp only [addDiscoveredPeer]
  split
  · rfl
  · split
    · rfl
    · split <;> rfl

theorem addDiscoveredPeer_isSome (s : DMState) (peer : TailnetPeer) (k : String)
    (h : (alGet k s.devices).isSome) :
    (alGet k (addDiscoveredPeer s peer).1.devices).isSome := by
  simp only [addDiscoveredPeer]
  split
  · exact h
  · split
    · exact h
    · split <;> exact alGet_isSome_alSet _ _ _ _ h

theorem markDeviceOffline_inv (s : DMState) (d : String)
    (hinv : PrimaryInTable s) : PrimaryInTable (markDeviceOffline s d).1 := by
  intro p hp
  rcases hd : alGet d s.devices with _ | device
  · simp only [markDeviceOffline, hd] at hp ⊢
    exact hinv p hp
  · by_cases hpd : s.primaryId = some d
    · simp only [markDeviceOffline, hd, if_pos hpd] at hp
      exact absurd hp (by simp)
    · simp only [markDeviceOffline, hd, if_neg hpd] at hp ⊢
      rcases hinv p hp with h | h
      · exact Or.inl h
      · exact Or.inr (alGet_isSome_alSet _ _ _ _ h)

theorem primaryInTable_step (s : DMState) (op : DMOp)
    (hinv : PrimaryInTable s) (hsafe : DMOpSafe s op) :
    PrimaryInTable (applyDMOp s op).1 := by
  cases op with
  | discovered peer =>
    intro p hp
    by_cases hself : peer.hostname = s.identity.tailscaleHostname
    · simp only [applyDMOp, addDiscoveredPeer, if_pos hself] at hp ⊢
      exact hinv p hp
    · rcases hparse : parseHostname s.hostnamePre peer.hostname with _ | parsed
      · simp only [applyDMOp, addDiscoveredPeer, if_neg hself, hparse] at hp ⊢
        exact hinv p hp
      · rcases hex : alGet parsed.2 s.devices with _ | existing <;>
          · simp only [applyDMOp, addDiscoveredPeer, if_neg hself, hparse, hex] at hp ⊢
            rcases hinv p hp with h | h
            · exact Or.inl h
            · exact Or.inr (alGet_isSome_alSet _ _ _ _ h)
  | announce f payload =>
    intro p hp
    simp only [applyDMOp, handleDeviceAnnounce] at hp ⊢
    rcases hinv p hp with h | h
    · exact Or.inl h
    · exact Or.inr (alGet_isSome_alSet _ _ _ _ h)
  | list f payload =>
    intro p hp
    simp only [applyDMOp, handleDeviceList] at hp ⊢
    by_cases he : payload.primaryId.isEmpty
    · simp only [if_pos he] at hp ⊢
      rcases hinv p hp with h | h
      · exact Or.inl h
      · exact Or.inr (upsert_preserves_isSome _ _ _ _ h)
    · simp only [if_neg he] at hp ⊢
      have hpp : payload.primaryId = p := Option.some.inj hp
      rcases hsafe with h | h | h
      · exact Or.inl (hpp ▸ h)
      · by_cases hl : p = s.identity.id
        · exact Or.inl hl
        · exact Or.inr (alGet_isSome_roleMap _ _ _
            (upsert_mem_isSome _ _ _ _ (hpp ▸ h) hl))
      · exact Or.inr (alGet_isSome_roleMap _ _ _
          (upsert_preserves_isSome _ _ _ _ (hpp ▸ h)))
  | goodbye d => exact markDeviceOffline_inv s d hinv
  | offline d => exact markDeviceOffline_inv s d hinv

end DeviceManager

/-- C4: the claim fails on both halves.  `handleDeviceList` adopts any
truthy payload `primaryId` without a membership check, so a list naming an
unknown device (`"ghost"`) breaks the invariant; and `addDiscoveredPeer`
can transition the current primary to offline (peer listed as not online)
without unsetting `primaryId`. -/
theorem C4_counterexample :
    ¬ DeviceManager.ClaimC4Inv ∧ ¬ DeviceManager.ClaimC4Offline := by
  constructor
  · intro h
    have h2 := h
      ⟨⟨"L", "desktop", "Local", "myapp-desktop-L"⟩, "myapp",
        ⟨"L", "desktop", "Local", "myapp-desktop-L", none, none, none, .offline,
          [], none, none, none⟩, [], none⟩
      [.list "x" ⟨[], "ghost"⟩]
      (fun p hp => absurd hp (by simp))
    have h3 := h2 "ghost" (by decide)
    rcases h3 with h3 | h3
    · exact absurd h3 (by decide)
    · exact absurd h3 (by decide)
  · intro h
    have h2 := h
      ⟨⟨"L", "desktop", "Local", "myapp-desktop-L"⟩, "myapp",
        ⟨"L", "desktop", "Local", "myapp-desktop-L", none, none, none, .offline,
          [], none, none, none⟩,
        [("dev-2", ⟨"dev-2", "desktop", "Desk2", "myapp-desktop-dev-2",
          some "dev2.ts.net", some "ip", none, .online, [], none, none, none⟩)],
        some "dev-2"⟩
      (.discovered ⟨"peer", "myapp-desktop-dev-2", "dev2.ts.net", ["ip"], false, none⟩)
      "dev-2"
      ⟨"dev-2", "desktop", "Desk2", "myapp-desktop-dev-2",
        some "dev2.ts.net", some "ip", none, .online, [], none, none, none⟩
      ⟨"dev-2", "desktop", "Desk2", "myapp-desktop-dev-2",
        some "dev2.ts.net", some "ip", none, .offline, [], none, none, none⟩
      (by decide) (by decide) (by decide) (by decide) (by decide) (by decide)
    exact absurd h2.1 (by decide)

/-- C4 (amended): the device-table invariant — a set `primaryId` names the
local device or a device in the table — is preserved by every sequence of
`addDiscoveredPeer`, `handleDeviceAnnounce`, `handleDeviceGoodbye` and
`markDeviceOffline` operations, and by `handleDeviceList` operations whose
payload `primaryId` names the local device, a listed device or a known
device; `markDeviceOffline` (and `handleDeviceGoodbye`) on the device whose
id equals `primaryId` unsets `primaryId` and fires `primaryChanged(null)` —
but `addDiscoveredPeer` may offline the primary without unsetting it. -/
theorem C4_invariant_amended :
    (∀ (s : DMState) (ops : List DeviceManager.DMOp),
      DeviceManager.PrimaryInTable s → DeviceManager.DMOpsSafe s ops →
      DeviceManager.PrimaryInTable (DeviceManager.runDMOps s ops))
    ∧ (∀ (s : DMState) (p : String) (d : BaseDevice),
      s.primaryId = some p → alGet p s.devices = some d →
      (DeviceManager.markDeviceOffline s p).1.primaryId = none
      ∧ DMEvent.primaryChanged none ∈ (DeviceManager.markDeviceOffline s p).2
      ∧ (DeviceManager.handleDeviceGoodbye s p).1.primaryId = none
      ∧ DMEvent.primaryChanged none ∈ (DeviceManager.handleDeviceGoodbye s p).2) := by
  constructor
  · intro s ops
    induction ops generalizing s with
    | nil => intro hinv _; exact hinv
    | cons op rest ih =>
      intro hinv hsafe
      exact ih _ (DeviceManager.primaryInTable_step s op hinv hsafe.1) hsafe.2
  · intro s p d hprim hdev
    have hoff : (DeviceManager.markDeviceOffline s p).1.primaryId = none
        ∧ DMEvent.primaryChanged none ∈ (DeviceManager.markDeviceOffline s p).2 := by
      simp only [DeviceManager.markDeviceOffline, hdev, if_pos hprim]
      simp
    exact ⟨hoff.1, hoff.2, hoff.1, hoff.2⟩

theorem C4_invariant_amended_witness :
    (DeviceManager.markDeviceOffline
      ⟨⟨"L", "desktop", "Local", "myapp-desktop-L"⟩, "myapp",
        ⟨"L", "desktop", "Local", "myapp-desktop-L", none, none, none, .offline,
          [], none, none, none⟩,
        [("dev-2", ⟨"dev-2", "desktop", "Desk2", "myapp-desktop-dev-2",
          none, none, none, .online, [], none, none, none⟩)],
        some "dev-2"⟩ "dev-2").1.primaryId = none :=
  (C4_invariant_amended.2
    ⟨⟨"L", "desktop", "Local", "myapp-desktop-L"⟩, "myapp",
      ⟨"L", "desktop", "Local", "myapp-desktop-L", none, none, none, .offline,
        [], none, none, none⟩,
      [("dev-2", ⟨"dev-2", "desktop", "Desk2", "myapp-desktop-dev-2",
        none, none, none, .online, [], none, none, none⟩)],
      some "dev-2"⟩ "dev-2"
    ⟨"dev-2", "desktop", "Desk2", "myapp-desktop-dev-2",
      none, none, none, .online, [], none, none, none⟩
    rfl (by decide)).1

/-- Claim C7 as stated: for a peer-list entry matching the hostname
convention and referring to an already-known device, an empty `dnsName`
on the new entry leaves the previously recorded `dnsName` unchanged. -/
def ClaimC7Prop : Prop :=
  ∀ (s : DMState) (peer : TailnetPeer) (parsed : String × String)
    (d d2 : BaseDevice),
    peer.hostname ≠ s.identity.tailscaleHostname →
    parseHostname s.hostnamePre peer.hostname = some parsed →
    alGet parsed.2 s.devices = some d →
    peer.dnsName = "" →
    alGet parsed.2 (DeviceManager.addDiscoveredPeer s peer).1.devices = some d2 →
    d2.tailscaleDNSName = d.tailscaleDNSName

/-- C7: the claim fails — `addDiscoveredPeer` overwrites an existing
device's `dnsName` with the peer entry's `dnsName` unconditionally, so an
empty new `dnsName` clobbers the recorded `"dev2.ts.net"`. -/
theorem C7_counterexample : ¬ ClaimC7Prop := by
  intro h
  have h2 := h
    ⟨⟨"L", "desktop", "Local", "myapp-desktop-L"⟩, "myapp",
      ⟨"L", "desktop", "Local", "myapp-desktop-L", none, none, none, .offline,
        [], none, none, none⟩,
      [("dev-2", ⟨"dev-2", "desktop", "Desk2", "myapp-desktop-dev-2",
        some "dev2.ts.net", some "ip", none, .online, [], none, none, none⟩)],
      none⟩
    ⟨"peer", "myapp-desktop-dev-2", "", ["ip"], true, none⟩
    ("desktop", "dev-2")
    ⟨"dev-2", "desktop", "Desk2", "myapp-desktop-dev-2",
      some "dev2.ts.net", some "ip", none, .online, [], none, none, none⟩
    ⟨"dev-2", "desktop", "Desk2", "myapp-desktop-dev-2",
      some "", some "ip", none, .online, [], none, none, none⟩
    (by decide) (by decide) (by decide) rfl (by decide)
  exact absurd h2 (by decide)

/-- C7 (amended): updating an already-known device, `addDiscoveredPeer`
takes the peer entry's `dnsName` unconditionally (even when empty) along
with the fresh status and IP; an empty new `dnsName` replaces the
previously recorded one (the empty-preserving merge belongs to
`handleDeviceAnnounce`/`handleDeviceList`, not to `addDiscoveredPeer`). -/
theorem C7_dns_overwrite (s : DMState) (peer : TailnetPeer)
    (parsed : String × String) (d : BaseDevice)
    (hself : peer.hostname ≠ s.identity.tailscaleHostname)
    (hparse : parseHostname s.hostnamePre peer.hostname = some parsed)
    (hex : alGet parsed.2 s.devices = some d) :
    ∃ d2, alGet parsed.2 (DeviceManager.addDiscoveredPeer s peer).1.devices = some d2
      ∧ d2.tailscaleDNSName = some peer.dnsName
      ∧ d2.status = (if peer.online then DeviceStatus.online else DeviceStatus.offline)
      ∧ d2.tailscaleIP = peer.tailscaleIPs.head? := by
  simp only [DeviceManager.addDiscoveredPeer, if_neg hself, hparse, hex]
  refine ⟨_, alGet_alSet_self _ _ _, rfl, rfl, rfl⟩

theorem C7_dns_overwrite_witness :
    ∃ d2,
      alGet "dev-2"
        (DeviceManager.addDiscoveredPeer
          ⟨⟨"L", "desktop", "Local", "myapp-desktop-L"⟩, "myapp",
            ⟨"L", "desktop", "Local", "myapp-desktop-L", none, none, none, .offline,
              [], none, none, none⟩,
            [("dev-2", ⟨"dev-2", "desktop", "Desk2", "myapp-desktop-dev-2",
              some "dev2.ts.net", some "ip", none, .online, [], none, none, none⟩)],
            none⟩
          ⟨"peer", "myapp-desktop-dev-2", "", ["ip"], true, none⟩).1.devices = some d2
      ∧ d2.tailscaleDNSName = some ""
      ∧ d2.status = (if true then DeviceStatus.online else DeviceStatus.offline)
      ∧ d2.tailscaleIP = (["ip"] : List String).head? :=
  C7_dns_overwrite
    ⟨⟨"L", "desktop", "Local", "myapp-desktop-L"⟩, "myapp",
      ⟨"L", "desktop", "Local", "myapp-desktop-L", none, none, none, .offline,
        [], none, none, none⟩,
      [("dev-2", ⟨"dev-2", "desktop", "Desk2", "myapp-desktop-dev-2",
        some "dev2.ts.net", some "ip", none, .online, [], none, none, none⟩)],
      none⟩
    ⟨"peer", "myapp-desktop-dev-2", "", ["ip"], true, none⟩
    ("desktop", "dev-2")
    ⟨"dev-2", "desktop", "Desk2", "myapp-desktop-dev-2",
      some "dev2.ts.net", some "ip", none, .online, [], none, none, none⟩
    (by decide) (by decide) (by decide)

/-! ### Message bus dispatch (`mesh-message-bus.ts`)

`dispatchMessage` looks up the handlers subscribed to the incoming
message's namespace and calls them one after the other, each inside a
`try`/`catch` that emits `error(err, namespace)` and continues.  A handler
is a function that either returns or throws (`Except`); the trace records
each invocation (by position) and each emitted error event. -/

structure BusMessage where
  fromId : Option String
  ns : String
  ty : String
  payload : JValue

structure IncomingMeshMessage where
  fromId : Option String
  connectionId : String
  ns : String
  ty : String
  payload : JValue

def BusHandler := BusMessage → Except String Unit

inductive DispatchEvent where
  | invoked (idx : Nat) (msg : BusMessage)
  | errorEmitted (err : String) (ns : String)

namespace MeshMessageBus

/-- The `BusMessage` built from an incoming message (`from`, `namespace`,
`type`, `payload`). -/
def busOf (m : IncomingMeshMessage) : BusMessage :=
  ⟨m.fromId, m.ns, m.ty, m.payload⟩

/-- The `for (const handler of handlers)` loop with its per-handler
`try`/`catch`. -/
def dispatchLoop (bm : BusMessage) (ns : String) :
    Nat → List BusHandler → List DispatchEvent
  | _, [] => []
  | i, h :: rest =>
    DispatchEvent.invoked i bm ::
      (match h bm with
        | .ok _ => dispatchLoop bm ns (i + 1) rest
        | .error e => DispatchEvent.errorEmitted e ns :: dispatchLoop bm ns (i + 1) rest)

/-- `dispatchMessage`: nothing happens without subscribed handlers for the
namespace; otherwise the loop runs over them in order. -/
def dispatchMessage (subs : List (String × List BusHandler))
    (m : IncomingMeshMessage) : List DispatchEvent :=
  match alGet m.ns subs with
  | none => []
  | some hs => if hs.isEmpty then [] else dispatchLoop (busOf m) m.ns 0 hs

def invokedIdx : DispatchEvent → Option Nat
  | .invoked i _ => some i
  | _ => none

theorem dispatchLoop_invocations (bm : BusMessage) (ns : String) :
    ∀ (hs : List BusHandler) (i : Nat),
      (dispatchLoop bm ns i hs).filterMap invokedIdx = List.range' i hs.length
  | [], i => by simp [dispatchLoop, List.range']
  | h :: rest, i => by
    rcases hh : h bm with e | u <;>
      simp [dispatchLoop, hh, invokedIdx, List.filterMap_cons, List.range',
        dispatchLoop_invocations bm ns rest (i + 1)]

theorem dispatchLoop_errors (bm : BusMessage) (ns : String) :
    ∀ (hs : List BusHandler) (i j : Nat) (h : BusHandler) (e : String),
      hs.get? j = some h → h bm = .error e →
      DispatchEvent.errorEmitted e ns ∈ dispatchLoop bm ns i hs
  | [], _, j, _, _, hget, _ => by simp at hget
  | h0 :: rest, i, 0, h, e, hget, herr => by
    simp only [List.get?_cons_zero, Option.some.injEq] at hget
    subst hget
    simp [dispatchLoop, herr]
  | h0 :: rest, i, j + 1, h, e, hget, herr => by
    simp only [List.get?_cons_succ] at hget
    have ih := dispatchLoop_errors bm ns rest (i + 1) j h e hget herr
    rcases hh : h0 bm with e0 | u <;> simp [dispatchLoop, hh, ih]

end MeshMessageBus

/-- C9: dispatch of an incoming application message runs the handlers
subscribed to its namespace synchronously, sequentially and exactly once
each (the invocation trace is exactly positions `0..n-1` in order), and a
throwing handler does not stop the loop: its exception is caught and
emitted as `error(err, namespace)` while every other handler still runs. -/
theorem C9_dispatch_continues_after_throw
    (subs : List (String × List BusHandler)) (m : IncomingMeshMessage)
    (hs : List BusHandler) (hsub : alGet m.ns subs = some hs) :
    ((MeshMessageBus.dispatchMessage subs m).filterMap MeshMessageBus.invokedIdx
        = List.range hs.length)
    ∧ (∀ (j : Nat) (h : BusHandler) (e : String),
        hs.get? j = some h → h (MeshMessageBus.busOf m) = .error e →
        DispatchEvent.errorEmitted e m.ns ∈ MeshMessageBus.dispatchMessage subs m) := by
  simp only [MeshMessageBus.dispatchMessage, hsub]
  by_cases he : hs.isEmpty
  · rcases hs with _ | ⟨h0, rest⟩
    · simp
    · simp at he
  · simp only [if_neg he]
    refine ⟨?_, ?_⟩
    · rw [MeshMessageBus.dispatchLoop_invocations, List.range_eq_range']
    · intro j h e hget herr
      exact MeshMessageBus.dispatchLoop_errors _ _ hs 0 j h e hget herr

theorem C9_dispatch_continues_after_throw_witness :
    ((MeshMessageBus.dispatchMessage
        [("events", [fun _ => Except.error "boom", fun _ => Except.ok ()])]
        ⟨some "dev-b", "conn", "events", "x", .jnull⟩).filterMap
      MeshMessageBus.invokedIdx = List.range 2) :=
  (C9_dispatch_continues_after_throw
    [("events", [fun _ => Except.error "boom", fun _ => Except.ok ()])]
    ⟨some "dev-b", "conn", "events", "x", .jnull⟩
    [fun _ => Except.error "boom", fun _ => Except.ok ()] rfl).1

/-- C1: for every envelope whose serialized form fits the 16 MiB bound and
for each serialization format, `decodeOne(encode(e, fmt))` succeeds,
yields the envelope value of `e` (which projects back to exactly `e`), and
reports `bytesConsumed` equal to the length of `encode(e, fmt)`. -/
theorem C1_encode_decode_roundtrip (m : NamespacedMessage)
    (fmt : SerializationFormat)
    (h : (FrameCodec.serializeMessage m).length ≤ MAX_MESSAGE_SIZE) :
    FrameCodec.decodeOne (FrameCodec.encode m fmt)
      = .ok (some ⟨toJValue m, (FrameCodec.encode m fmt).length, false⟩)
    ∧ msgOfJValue (toJValue m) = some m :=
  ⟨decode_encode m fmt h, msgOfJValue_toJValue m⟩

theorem C1_encode_decode_roundtrip_witness :
    FrameCodec.decodeOne
        (FrameCodec.encode ⟨"events", "x", some (.jstr "p"), none, some 5⟩ .json)
      = .ok (some ⟨toJValue ⟨"events", "x", some (.jstr "p"), none, some 5⟩,
          (FrameCodec.encode ⟨"events", "x", some (.jstr "p"), none, some 5⟩ .json).length,
          false⟩) :=
  (C1_encode_decode_roundtrip ⟨"events", "x", some (.jstr "p"), none, some 5⟩ .json
    (by decide)).1

/-- Claim C6 as stated: every frame the synchronous decoder accepts carries
a non-empty `namespace` and a non-empty `type`. -/
def ClaimC6Prop : Prop :=
  ∀ (buffer : List Nat) (res : FrameCodec.DecodeResult),
    FrameCodec.decodeOne buffer = .ok (some res) →
    (∃ ns, jsGetField res.message "namespace" = some (.jstr ns) ∧ ns ≠ "")
    ∧ (∃ ty, jsGetField res.message "type" = some (.jstr ty) ∧ ty ≠ "")

/-- C6: the claim fails — the validation in `deserialize` only checks that
`namespace` and `type` are strings, not that they are non-empty, so the
encoding of an envelope with `namespace = ""` decodes successfully. -/
theorem C6_counterexample : ¬ ClaimC6Prop := by
  intro h
  have hdec := decode_encode ⟨"", "x", none, none, none⟩ .json (by decide)
  obtain ⟨⟨ns, hns, hne⟩, -⟩ := h _ _ hdec
  have hval : jsGetField (toJValue ⟨"", "x", none, none, none⟩) "namespace"
      = some (JValue.jstr "") := rfl
  rw [hval] at hns
  simp only [Option.some.injEq, JValue.jstr.injEq] at hns
  exact hne hns.symm

/-- C6 (amended): a complete uncompressed in-bounds frame in a known format
decodes successfully iff its deserialized value is an object whose
`namespace` and `type` properties are strings — possibly empty — and fails
with the invalid-envelope error otherwise; in particular an envelope with
empty `namespace` and `type` is returned, not rejected. -/
theorem C6_validation_amended :
    (∀ (payload : List Nat) (flags : Nat) (v : JValue),
      payload.length ≤ MAX_MESSAGE_SIZE → flags % 2 ≠ 1 →
      (flags / 2 % 4 * 2 = FLAG_FORMAT_MSGPACK ∨ flags / 2 % 4 * 2 = FLAG_FORMAT_JSON) →
      parseFull payload = some v →
      FrameCodec.decodeOne (FrameCodec.createFrame payload flags)
        = if FrameCodec.isValidMessage v
          then .ok (some ⟨v, HEADER_SIZE + payload.length, false⟩)
          else .error .invalidMessage)
    ∧ FrameCodec.decodeOne (FrameCodec.encode ⟨"", "", none, none, none⟩ .json)
        = .ok (some ⟨toJValue ⟨"", "", none, none, none⟩,
            (FrameCodec.encode ⟨"", "", none, none, none⟩ .json).length, false⟩) := by
  constructor
  · intro payload flags v hlen hcomp hfmt hparse
    rw [decodeOne_createFrame payload flags hlen hcomp, FrameCodec.deserialize,
      if_pos hfmt, hparse]
    by_cases hv : FrameCodec.isValidMessage v <;> simp [hv, Except.map]
  · exact decode_encode ⟨"", "", none, none, none⟩ .json (by decide)

theorem C6_validation_amended_witness :
    FrameCodec.decodeOne (FrameCodec.createFrame (valEnc (JValue.jstr "x")) 2)
      = .error .invalidMessage := by
  have h := C6_validation_amended.1 (valEnc (JValue.jstr "x")) 2 (JValue.jstr "x")
    (by decide) (by decide) (Or.inr rfl) (parseFull_valEnc _)
  simpa using h

/-- C2: the election ranking (user-designated first, then longer uptime,
then lexicographically smaller device id) is a strict total order —
irreflexive, transitive, trichotomous — so `selectWinner` is independent of
candidate order and two nodes holding the same candidate set decide the
same winner; on `{aaa, 60000, false}` and `{dev-1, 60000, false}` (in
either order) the winner is `aaa`. -/
theorem C2_ranking_strict_total_order :
    (∀ a, ¬ PrimaryElection.rankLT a a)
    ∧ (∀ a b c, PrimaryElection.rankLT a b → PrimaryElection.rankLT b c →
        PrimaryElection.rankLT a c)
    ∧ (∀ a b, PrimaryElection.rankLT a b ∨ a = b ∨ PrimaryElection.rankLT b a)
    ∧ (∀ l1 l2 : List ElectionCandidatePayload, l1.Perm l2 →
        PrimaryElection.selectWinner l1 = PrimaryElection.selectWinner l2)
    ∧ PrimaryElection.selectWinner
        [⟨"aaa", 60000, false⟩, ⟨"dev-1", 60000, false⟩]
        = some ⟨"aaa", 60000, false⟩
    ∧ PrimaryElection.selectWinner
        [⟨"dev-1", 60000, false⟩, ⟨"aaa", 60000, false⟩]
        = some ⟨"aaa", 60000, false⟩ := by
  refine ⟨PrimaryElection.rankLT_irrefl_aux, PrimaryElection.rankLT_trans_aux,
    PrimaryElection.rankLT_trichotomy_aux,
    fun _ _ h => PrimaryElection.selectWinner_perm h, ?_, ?_⟩
  · have hle : ("aaa" : String) ≤ "dev-1" := by
      rw [String.le_iff_toList_le]; decide
    rw [PrimaryElection.selectWinner, PrimaryElection.mergeSort_pair]
    simp [PrimaryElection.candLe, hle]
  · have hle : ¬ ("dev-1" : String) ≤ "aaa" := by
      rw [String.le_iff_toList_le]; decide
    rw [PrimaryElection.selectWinner, PrimaryElection.mergeSort_pair]
    simp [PrimaryElection.candLe, hle]

theorem C2_ranking_strict_total_order_witness :
    PrimaryElection.selectWinner
        [(⟨"aaa", 60000, false⟩ : ElectionCandidatePayload), ⟨"dev-1", 60000, false⟩]
      = PrimaryElection.selectWinner
        [⟨"dev-1", 60000, false⟩, ⟨"aaa", 60000, false⟩] :=
  C2_ranking_strict_total_order.2.2.2.1
    [⟨"aaa", 60000, false⟩, ⟨"dev-1", 60000, false⟩]
    [⟨"dev-1", 60000, false⟩, ⟨"aaa", 60000, false⟩]
    (List.Perm.swap _ _ _)

end Truffle
